import Mathlib

/-!
# kit: the Git-backed object store (`internal/store`)

A shallow embedding of `internal/store/utils.go` and `internal/store/store.go`.

* Go `string`s are Lean `String`s.  The only bytes the path code inspects are
  `/` and `.`, which never occur inside a multi-byte UTF-8 sequence, so the
  byte-wise loops of the Go code are rendered character-wise.
* `map[string]interface{}` is an association list searched from the front.
* A Go call has three outcomes: a normal return, an `error` return, or a
  run-time panic (`Res`).
* The operating system, the YAML encoder, the unstructured converter and the
  Git library are a record of state transformers (`Env`); `Write`, `Delete`
  and `Commit` are written once, over any such record.
-/

set_option autoImplicit false

namespace Kit

/-! ## Values and outcomes -/

/-- A dynamically typed Go value as produced by the unstructured converter. -/
inductive Value where
  | null
  | bool (b : Bool)
  | int (n : Int)
  | float (bits : Nat)
  | str (s : String)
  | list (xs : List Value)
  | map (kvs : List (String × Value))

/-- A Go `map[string]interface{}`. -/
abbrev Obj := List (String × Value)

/-- The outcome of a Go call: a value, a non-nil `error` (its message), or a panic. -/
inductive Res (α : Type) where
  | ok (a : α)
  | err (msg : String)
  | panic (msg : String)
  deriving DecidableEq, Repr

/-- The map index expression `m[key]` in its comma-ok form. -/
def Obj.get (m : Obj) (key : String) : Option Value :=
  match m with
  | [] => none
  | (k, v) :: rest => if k = key then some v else Obj.get rest key

/-! ## `utils.go` -/

def UnstructuredKeyMetadata : String := "metadata"
def UnstructuredKeyNamespace : String := "namespace"
def UnstructuredKeyName : String := "name"

structure Path where
  Relative : String
  Absolute : String
  deriving DecidableEq, Repr

structure PathList where
  Directory : Path
  File : Path
  deriving DecidableEq, Repr

/-- The name Go prints for the dynamic type of a value. -/
def Value.typeName : Value → String
  | .null => "nil"
  | .bool _ => "bool"
  | .int _ => "int64"
  | .float _ => "float64"
  | .str _ => "string"
  | .list _ => "[]interface \x7b\x7d"
  | .map _ => "map[string]interface \x7b\x7d"

/-- The message of the run-time error raised by the failing single-value type
assertion `v.(want)`. -/
def assertionPanic (v : Value) (want : String) : String :=
  "interface conversion: interface \x7b\x7d is " ++ v.typeName ++ ", not " ++ want

/-- GetNamespaceName of `utils.go`, lines 53-78.  The three type assertions are
the single-value form, which panics when the dynamic type differs.  The values
returned next to a non-nil error are dropped: `GetPaths` does not read them. -/
def GetNamespaceName (obj : Obj) : Res (String × String) :=
  match Obj.get obj UnstructuredKeyMetadata with
  | none => .err ("not found: " ++ UnstructuredKeyMetadata)
  | some (.map metadata) =>
    match Obj.get metadata UnstructuredKeyNamespace with
    | none => .err ("not found: " ++ UnstructuredKeyNamespace)
    | some (.str ns) =>
      match Obj.get metadata UnstructuredKeyName with
      | none => .err ("not found: " ++ UnstructuredKeyName)
      | some (.str name) => .ok (ns, name)
      | some v => .panic (assertionPanic v "string")
    | some v => .panic (assertionPanic v "string")
  | some v => .panic (assertionPanic v "map[string]interface \x7b\x7d")

/-! ### `path/filepath` (Unix) -/

def Separator : Char := '/'

/-- The inner loop of the `..` case of `filepath.Clean`:
`for out.w > dotdot && !os.IsPathSeparator(out.index(out.w)) { out.w-- }`. -/
def backtrack (buf : List Char) (dotdot : Nat) : Nat → Nat
  | 0 => 0
  | w + 1 =>
    if w + 1 > dotdot ∧ buf.getD (w + 1) Separator ≠ Separator then backtrack buf dotdot w
    else w + 1

/-- The slash `filepath.Clean` writes before a real path element:
`if rooted && out.w != 1 || !rooted && out.w != 0 { out.append(Separator) }`. -/
def sepIf (rooted : Bool) (out : List Char) : List Char :=
  if (rooted ∧ out.length ≠ 1) ∨ (¬ rooted ∧ out.length ≠ 0) then [Separator] else []

/-- One iteration of the main loop of `filepath.Clean`, entered with the unread
input `c :: rest`, the output written so far and the `dotdot` mark.  It returns
the input left to read and the new output and mark. -/
def cleanStep (rooted : Bool) (c : Char) (rest : List Char) (out : List Char) (dotdot : Nat) :
    List Char × List Char × Nat :=
  if c = Separator then
    -- empty path element
    (rest, out, dotdot)
  else if c = '.' ∧ (rest = [] ∨ rest.head? = some Separator) then
    -- . element
    (rest, out, dotdot)
  else if c = '.' ∧ rest.head? = some '.' ∧
      (rest.tail = [] ∨ rest.tail.head? = some Separator) then
    -- .. element: remove to last separator
    if out.length > dotdot then
      (rest.tail, out.take (backtrack out dotdot (out.length - 1)), dotdot)
    else if ¬ rooted then
      let out1 := (if out.length > 0 then out ++ [Separator] else out) ++ ['.', '.']
      (rest.tail, out1, out1.length)
    else
      (rest.tail, out, dotdot)
  else
    -- real path element: add slash if needed, then copy the element
    ((c :: rest).dropWhile (fun x => x ≠ Separator),
      out ++ sepIf rooted out ++ (c :: rest).takeWhile (fun x => x ≠ Separator), dotdot)

/-- The main loop `for r < n { ... }` of `filepath.Clean`.  Every iteration reads at
least one byte, so `fuel = len(path)` iterations always reach the end of the input. -/
def cleanLoop (rooted : Bool) : Nat → List Char → List Char → Nat → List Char × Nat
  | _, [], out, dotdot => (out, dotdot)
  | 0, _ :: _, out, dotdot => (out, dotdot)
  | fuel + 1, c :: rest, out, dotdot =>
    let next := cleanStep rooted c rest out dotdot
    cleanLoop rooted fuel next.1 next.2.1 next.2.2

/-- The body of `filepath.Clean` on Unix (no volume name), over the bytes of the path. -/
def cleanData (p : List Char) : List Char :=
  if p = [] then ['.']
  else
    let rooted : Bool := p.head? = some Separator
    let body := if rooted then p.tail else p
    let out := (cleanLoop rooted body.length body (if rooted then [Separator] else [])
      (if rooted then 1 else 0)).1
    -- Turn empty string into "."
    if out.length = 0 then ['.'] else out

/-- The function `filepath.Clean` on Unix (`FromSlash` is the identity there). -/
def Clean (path : String) : String :=
  String.mk (cleanData path.data)

/-- The function `filepath.Join` on Unix: the elements from the first non-empty
one on are joined with the separator and cleaned. -/
def Join (elem : List String) : String :=
  match elem.dropWhile (fun e => e = "") with
  | [] => ""
  | e :: es => Clean (String.intercalate "/" (e :: es))

/-- GetPaths of `utils.go`, lines 29-50. -/
def GetPaths (rootDir group : String) (unstructured : Obj) : Res PathList :=
  match GetNamespaceName unstructured with
  | .panic v => .panic v
  | .err e => .err ("failed to extract metadata: " ++ e)
  | .ok (ns, name) =>
    let fileName := name ++ ".yml"
    .ok
      { Directory :=
          { Relative := Join [ns, group]
            Absolute := Join [rootDir, ns, group] }
        File :=
          { Relative := Join [ns, group, fileName]
            Absolute := Join [rootDir, ns, group, fileName] } }

/-- An object carrying only `metadata.namespace` and `metadata.name`. -/
def identified (ns name : String) : Obj :=
  [("metadata", .map [("namespace", .str ns), ("name", .str name)])]

/-- The main loop of `filepath.Clean` run to the end of its input. -/
def cleanAll (rooted : Bool) (path out : List Char) (dotdot : Nat) : List Char × Nat :=
  cleanLoop rooted path.length path out dotdot

/-- A path segment that `filepath.Clean` copies unchanged: not empty, not `.`,
not `..`, and free of separators. -/
def PlainChars (l : List Char) : Prop :=
  l ≠ [] ∧ l ≠ ['.'] ∧ l ≠ ['.', '.'] ∧ Separator ∉ l

/-- A string that is a single path segment for `filepath.Join`: not empty, not
`.`, not `..`, and free of separators. -/
def PlainSegment (s : String) : Prop :=
  s ≠ "" ∧ s ≠ "." ∧ s ≠ ".." ∧ Separator ∉ s.data

instance (s : String) : Decidable (PlainSegment s) := by
  unfold PlainSegment
  infer_instance

/-- A string free of path separators. -/
def NoSeparator (s : String) : Prop :=
  Separator ∉ s.data

instance (s : String) : Decidable (NoSeparator s) := by
  unfold NoSeparator
  infer_instance

/-- A root directory that `filepath.Join` leaves as it is in front of further
segments: already clean, and neither `.` nor `/`. -/
def CleanRoot (rootDir : String) : Prop :=
  Clean rootDir = rootDir ∧ rootDir ≠ "." ∧ rootDir ≠ "/"

instance (rootDir : String) : Decidable (CleanRoot rootDir) := by
  unfold CleanRoot
  infer_instance

/-! ## `store.go` -/

/-- The status codes of go-git (`StatusCode`). -/
inductive StatusCode where
  | Unmodified
  | Untracked
  | Modified
  | Added
  | Deleted
  | Renamed
  | Copied
  | UpdatedButUnmerged
  deriving DecidableEq, Repr

/-- The status of one file in the staging area and in the worktree (`FileStatus`). -/
structure FileStatus where
  Staging : StatusCode
  Worktree : StatusCode
  deriving DecidableEq, Repr

/-- The working tree status of go-git, `map[string]*FileStatus`. -/
abbrev Status := List (String × FileStatus)

/-- The method `Status.IsClean` of go-git: no entry differs from `Unmodified` in the
worktree or in the staging area. -/
def Status.IsClean (s : Status) : Bool :=
  s.all (fun e => ¬ (e.2.Worktree ≠ .Unmodified ∨ e.2.Staging ≠ .Unmodified))

/-- The author of a commit (`object.Signature`); its time is the clock of the
environment. -/
structure Signature where
  Name : String
  Email : String
  deriving DecidableEq, Repr

/-- What `store.go` calls outside the package, as transformers of a state `σ` that
holds the file system and the repository.  A call returns its Go `error` (its message)
next to the state it leaves behind. -/
structure Env (ρ σ : Type) where
  /-- runtime.DefaultUnstructuredConverter.ToUnstructured -/
  ToUnstructured : ρ → Except String Obj
  /-- yaml.Marshal -/
  Marshal : Obj → Except String String
  /-- The test `os.IsNotExist(err)` on the error of `os.Stat(name)`. -/
  StatIsNotExist : String → σ → Bool
  /-- os.MkdirAll(path, 0755) -/
  MkdirAll : String → σ → Option String × σ
  /-- os.OpenFile(name, os.O_CREATE|os.O_WRONLY|os.O_TRUNC, 0644) -/
  OpenFile : String → σ → Option String × σ
  /-- The method `Write` of the file opened at the given name. -/
  FileWrite : String → String → σ → Option String × σ
  /-- os.Remove -/
  Remove : String → σ → Option String × σ
  /-- The error of `Repository.Worktree`. -/
  Worktree : σ → Option String
  /-- Worktree.Status -/
  Status : σ → Except String Status × σ
  /-- Worktree.Add -/
  Add : String → σ → Option String × σ
  /-- Worktree.Commit; returns the rendering of the new commit's hash. -/
  Commit : String → Signature → σ → Except String String × σ
  /-- log.Printf -/
  Printf : String → σ → σ

/-- Client for interacting with Git storage.  The repository handle and the mutex live
in the environment; calls are modelled one at a time. -/
structure Client where
  rootDir : String
  deriving DecidableEq, Repr

section Store

variable {ρ σ : Type}

/-- The method `Client.Commit` of `store.go`, lines 116-151. -/
def Client.Commit (env : Env ρ σ) (_c : Client) (file message : String) (s : σ) : Res Unit × σ :=
  match env.Worktree s with
  | some e => (.err ("failed to get worktree: " ++ e), s)
  | none =>
    match env.Status s with
    | (.error e, s1) => (.err ("failed to get repository status: " ++ e), s1)
    | (.ok st, s1) =>
      -- There are no changes so we don't have to commit.
      if st.IsClean then (.ok (), s1)
      else
        match env.Add file s1 with
        | (some e, s2) => (.err ("failed to add file: " ++ e), s2)
        | (none, s2) =>
          match env.Commit message { Name := "John Doe", Email := "john@doe.org" } s2 with
          | (.error e, s3) => (.err ("failed to commit: " ++ e), s3)
          | (.ok commit, s3) => (.ok (), env.Printf (message ++ " (" ++ commit ++ ")\n") s3)

/-- The method `Client.Write` of `store.go`, lines 48-89. -/
def Client.Write (env : Env ρ σ) (c : Client) (group : String) (obj : ρ) (s : σ) : Res Unit × σ :=
  -- c.Lock(); defer c.Unlock(): one call runs at a time here.
  -- defer f.Close(): the error of the deferred call is dropped.
  match env.ToUnstructured obj with
  | .error e => (.err ("failed to convert to unstructured object: " ++ e), s)
  | .ok unstructured =>
    match GetPaths c.rootDir group unstructured with
    | .panic v => (.panic v, s)
    | .err e => (.err ("failed to get paths: " ++ e), s)
    | .ok paths =>
      match env.Marshal unstructured with
      | .error e => (.err ("failed to marshal to yaml: " ++ e), s)
      | .ok data =>
        match (if env.StatIsNotExist paths.Directory.Absolute s
            then env.MkdirAll paths.Directory.Absolute s else (none, s)) with
        | (some e, s1) => (.err ("failed to create directory: " ++ e), s1)
        | (none, s1) =>
          match env.OpenFile paths.File.Absolute s1 with
          | (some e, s2) => (.err ("failed to open file: " ++ e), s2)
          | (none, s2) =>
            match env.FileWrite paths.File.Absolute data s2 with
            | (some e, s3) => (.err ("failed to write to file: " ++ e), s3)
            | (none, s3) =>
              c.Commit env paths.File.Relative ("Object changed: " ++ paths.File.Relative) s3

/-- The method `Client.Delete` of `store.go`, lines 91-114. -/
def Client.Delete (env : Env ρ σ) (c : Client) (group : String) (obj : ρ) (s : σ) : Res Unit × σ :=
  -- c.Lock(); defer c.Unlock(): one call runs at a time here.
  match env.ToUnstructured obj with
  | .error e => (.err ("failed to convert to unstructured object: " ++ e), s)
  | .ok unstructured =>
    match GetPaths c.rootDir group unstructured with
    | .panic v => (.panic v, s)
    | .err e => (.err ("failed to get paths: " ++ e), s)
    | .ok paths =>
      match env.Remove paths.File.Absolute s with
      | (some e, s1) => (.err ("failed to delete file: " ++ e), s1)
      | (none, s1) =>
        c.Commit env paths.File.Relative ("Object deleted: " ++ paths.File.Relative) s1

/-! ### Observing the repository calls -/

/-- What a run leaves in the record: the cleanliness of each status read and the
message of each commit created. -/
inductive Event where
  | status (clean : Bool)
  | commit (message : String)
  deriving DecidableEq, Repr

/-- An environment that behaves as `env` and also records every successful
`Worktree.Status` and every successful `Worktree.Commit`. -/
def recording (env : Env ρ σ) : Env ρ (σ × List Event) where
  ToUnstructured := env.ToUnstructured
  Marshal := env.Marshal
  StatIsNotExist := fun name s => env.StatIsNotExist name s.1
  MkdirAll := fun path s => ((env.MkdirAll path s.1).1, (env.MkdirAll path s.1).2, s.2)
  OpenFile := fun name s => ((env.OpenFile name s.1).1, (env.OpenFile name s.1).2, s.2)
  FileWrite := fun name data s =>
    ((env.FileWrite name data s.1).1, (env.FileWrite name data s.1).2, s.2)
  Remove := fun name s => ((env.Remove name s.1).1, (env.Remove name s.1).2, s.2)
  Worktree := fun s => env.Worktree s.1
  Status := fun s =>
    match env.Status s.1 with
    | (.ok st, s1) => (.ok st, s1, s.2 ++ [.status st.IsClean])
    | (.error e, s1) => (.error e, s1, s.2)
  Add := fun file s => ((env.Add file s.1).1, (env.Add file s.1).2, s.2)
  Commit := fun message author s =>
    match env.Commit message author s.1 with
    | (.ok h, s1) => (.ok h, s1, s.2 ++ [.commit message])
    | (.error e, s1) => (.error e, s1, s.2)
  Printf := fun line s => (env.Printf line s.1, s.2)

end Store

/-! ## A reference environment

An in-memory file system and repository, after the Unix system calls and go-git v4,
used to run `Write` and `Delete` on concrete states.  No theorem about every state is
proved on it.  It has no permissions, links, full disks or damaged repositories: a call
fails only for the reasons written out below. -/

/-- The content stored under a path. -/
def find (k : String) : List (String × String) → Option String
  | [] => none
  | (k', v) :: rest => if k' = k then some v else find k rest

/-- Store a content under a path, replacing what was there. -/
def store (k v : String) (l : List (String × String)) : List (String × String) :=
  (k, v) :: l.filter (fun e => e.1 ≠ k)

/-- Remove a path. -/
def erase (k : String) (l : List (String × String)) : List (String × String) :=
  l.filter (fun e => e.1 ≠ k)

structure World where
  /-- Regular files, by cleaned path. -/
  files : List (String × String)
  /-- Directories, by cleaned path. -/
  dirs : List String
  /-- Staging area, by path relative to the root of the worktree. -/
  index : List (String × String)
  /-- Tree of the commit at HEAD, by path relative to the root of the worktree. -/
  head : List (String × String)
  /-- Messages of the commits, oldest first. -/
  history : List String
  /-- Lines written by `log.Printf`. -/
  output : List String
  deriving DecidableEq, Repr

/-- The prefixes of a path that end before a separator, outermost first; `acc` is the
part of the path read so far. -/
def ancestorsFrom : List Char → List Char → List String
  | _, [] => []
  | acc, c :: rest =>
    if c = Separator then
      String.mk (if acc = [] then [Separator] else acc) :: ancestorsFrom (acc ++ [c]) rest
    else ancestorsFrom (acc ++ [c]) rest

/-- The directories above a cleaned path, outermost first. -/
def ancestors (path : String) : List String :=
  (ancestorsFrom [] path.data).filter (fun a => a ≠ path)

/-- Some directory above the path is a regular file (`ENOTDIR`). -/
def fileAbove (w : World) (path : String) : Bool :=
  (ancestors path).any (fun a => (find a w.files).isSome)

/-- Something lies below the directory. -/
def occupied (w : World) (dir : String) : Bool :=
  w.files.any (fun e => dir ∈ ancestors e.1) || w.dirs.any (fun d => dir ∈ ancestors d)

/-- The system call behind `os.Stat`, as far as `os.IsNotExist` reads its error. -/
def statIsNotExist (name : String) (w : World) : Bool :=
  name ∉ w.dirs ∧ find name w.files = none ∧ fileAbove w name = false

/-- The call `os.MkdirAll`: it makes the directory and those above it that are missing,
and fails when the path or a directory above it is a regular file. -/
def mkdirAll (path : String) (w : World) : Option String × World :=
  if (find path w.files).isSome ∨ fileAbove w path = true then
    (some ("mkdir " ++ path ++ ": not a directory"), w)
  else
    (none, { w with dirs := ((ancestors path ++ [path]).filter (fun d => d ∉ w.dirs)) ++ w.dirs })

/-- The call `os.OpenFile` with `O_CREATE|O_WRONLY|O_TRUNC`: it fails on a directory, below
a regular file and in a directory that is missing; otherwise the file is there and
empty. -/
def openFile (name : String) (w : World) : Option String × World :=
  if name ∈ w.dirs then (some ("open " ++ name ++ ": is a directory"), w)
  else if fileAbove w name = true then (some ("open " ++ name ++ ": not a directory"), w)
  else if (ancestors name).any (fun a => a ∉ w.dirs) then
    (some ("open " ++ name ++ ": no such file or directory"), w)
  else (none, { w with files := store name "" w.files })

/-- The call `os.Remove`: it removes a file or an empty directory. -/
def osRemove (name : String) (w : World) : Option String × World :=
  match find name w.files with
  | some _ => (none, { w with files := erase name w.files })
  | none =>
    if name ∈ w.dirs then
      if occupied w name = true then (some ("remove " ++ name ++ ": directory not empty"), w)
      else (none, { w with dirs := w.dirs.filter (fun d => d ≠ name) })
    else if fileAbove w name = true then (some ("remove " ++ name ++ ": not a directory"), w)
    else (some ("remove " ++ name ++ ": no such file or directory"), w)

/-- The path of a file relative to the worktree at `root`, when the file lies below it.
The files are stored under cleaned paths, so the root is cleaned first. -/
def relativeTo (root path : String) : Option String :=
  if Clean root = "." then
    if path.data.head? = some Separator ∨ path = ".." ∨
        List.isPrefixOf ['.', '.', Separator] path.data then none
    else some path
  else if Clean root = "/" then
    if path.data.head? = some Separator ∧ path ≠ "/" then some (String.mk path.data.tail)
    else none
  else if (Clean root ++ "/").data.isPrefixOf path.data then
    some (String.mk (path.data.drop (Clean root ++ "/").data.length))
  else none

/-- The content of the worktree file at a path relative to `root`. -/
def worktreeFile (root : String) (w : World) (rel : String) : Option String :=
  find (Join [root, rel]) w.files

/-- The path lies in the `.git` directory of the worktree, which the status never
enters. -/
def insideGitDir (rel : String) : Bool :=
  rel = ".git" ∨ List.isPrefixOf ".git/".data rel.data

/-- What the status sees in the worktree at a relative path.  A path inside `.git`, or
one the ignore rules match, is taken to be as the staging area has it: go-git drops the
differences between staging area and worktree on such paths. -/
def seenWorktree (root : String) (ignored : String → Bool) (w : World) (rel : String) :
    Option String :=
  if insideGitDir rel = true ∨ ignored rel = true then find rel w.index
  else worktreeFile root w rel

/-- The staging code of a path, from its content at HEAD and in the staging area. -/
def stagingCode : Option String → Option String → StatusCode
  | none, none => .Untracked
  | none, some _ => .Added
  | some _, none => .Deleted
  | some a, some b => if a = b then .Unmodified else .Modified

/-- The worktree code of a path, from its content in the staging area and what the
status sees in the worktree. -/
def worktreeCode : Option String → Option String → StatusCode
  | none, none => .Unmodified
  | none, some _ => .Untracked
  | some _, none => .Deleted
  | some a, some b => if a = b then .Unmodified else .Modified

/-- The paths the status reports on: those known to HEAD, to the staging area or seen
in the worktree. -/
def statusPaths (root : String) (ignored : String → Bool) (w : World) : List String :=
  (w.head.map (fun e => e.1) ++ w.index.map (fun e => e.1) ++
    w.files.filterMap (fun e => relativeTo root e.1)).filter (fun p =>
      (find p w.head).isSome || (find p w.index).isSome ||
        (seenWorktree root ignored w p).isSome)

/-- The method `Worktree.Status` on the reference environment. -/
def statusOf (root : String) (ignored : String → Bool) (w : World) : Status :=
  (statusPaths root ignored w).map (fun p =>
    (p, { Staging := stagingCode (find p w.head) (find p w.index)
          Worktree := worktreeCode (find p w.index) (seenWorktree root ignored w p) }))

/-- The reference environment for a worktree at `root`, a given YAML encoder and a
given matcher `ignored` for the ignore rules of the worktree (`Write` and `Delete` write
no ignore file, so the rules stay as they are).  The objects passed in are unstructured
already.  `FileWrite` sets the content of the file just truncated; `Add` copies the
worktree file into the staging area, or drops the entry of a file that is gone;
`Commit` makes the staging area the new HEAD tree and records the commit whether or
not the tree changed, as go-git v4 does. -/
def gitEnv (root : String) (marshal : Obj → Except String String) (ignored : String → Bool) :
    Env Obj World where
  ToUnstructured := fun obj => .ok obj
  Marshal := marshal
  StatIsNotExist := statIsNotExist
  MkdirAll := mkdirAll
  OpenFile := openFile
  FileWrite := fun name data w => (none, { w with files := store name data w.files })
  Remove := osRemove
  Worktree := fun _ => none
  Status := fun w => (.ok (statusOf root ignored w), w)
  Add := fun file w =>
    match find (Join [root, file]) w.files with
    | some v => (none, { w with index := store file v w.index })
    | none =>
      match find file w.index with
      | some _ => (none, { w with index := erase file w.index })
      | none => (some "entry not found", w)
  Commit := fun message _ w =>
    (.ok ("#" ++ message), { w with head := w.index, history := w.history ++ [message] })
  Printf := fun line w => { w with output := w.output ++ [line] }

/-- A stand-in for the YAML encoder: it renders the top-level `status` string only. -/
def statusYaml (obj : Obj) : Except String String :=
  match Obj.get obj "status" with
  | some (.str v) => .ok ("status: " ++ v ++ "\n")
  | _ => .ok "\x7b\x7d\n"

/-- The pod of the scenario of the specification, with the given `status`. -/
def web1 (status : String) : Obj :=
  [("metadata", .map [("namespace", .str "default"), ("name", .str "web-1")]),
   ("status", .str status)]

/-- An empty repository at `/repo`. -/
def emptyRepo : World :=
  { files := [], dirs := ["/repo", "/"], index := [], head := [], history := [], output := [] }

/-- A repository at `/repo` in which `web1 "Running"` is stored and committed. -/
def storedRepo : World :=
  { files := [("/repo/default/pod/web-1.yml", "status: Running\n")]
    dirs := ["/repo/default", "/repo/default/pod", "/repo", "/"]
    index := [("default/pod/web-1.yml", "status: Running\n")]
    head := [("default/pod/web-1.yml", "status: Running\n")]
    history := ["Object changed: default/pod/web-1.yml"]
    output := ["Object changed: default/pod/web-1.yml (#Object changed: default/pod/web-1.yml)\n"] }

/-- The repository `storedRepo` with one more file in the worktree, unknown to Git: the
file of a `web-2` that was written and never committed. -/
def dirtyRepo : World :=
  { storedRepo with
    files := ("/repo/default/pod/web-2.yml", "status: Pending\n") :: storedRepo.files }

/-- A repository at `/repo` whose one commit stores `web-2`, and whose worktree also
holds the file of `web1 "Running"`, unknown to Git. -/
def untrackedRepo : World :=
  { files := [("/repo/default/pod/web-1.yml", "status: Running\n"),
              ("/repo/default/pod/web-2.yml", "status: Running\n")]
    dirs := ["/repo/default", "/repo/default/pod", "/repo", "/"]
    index := [("default/pod/web-2.yml", "status: Running\n")]
    head := [("default/pod/web-2.yml", "status: Running\n")]
    history := ["Object changed: default/pod/web-2.yml"]
    output := [] }

/-- A repository at `/repo` whose one commit holds a `.gitignore` with the rule
`*.yml`. -/
def ignoringRepo : World :=
  { files := [("/repo/.gitignore", "*.yml\n")]
    dirs := ["/repo", "/"]
    index := [(".gitignore", "*.yml\n")]
    head := [(".gitignore", "*.yml\n")]
    history := ["Ignore the objects"]
    output := [] }

/-- The matcher of the ignore rule `*.yml`. -/
def ymlIgnored (rel : String) : Bool :=
  List.isPrefixOf ".yml".data.reverse rel.data.reverse

/-- The client and environment of the scenarios: a worktree at `/repo`. -/
def repoClient : Client := { rootDir := "/repo" }

/-- The reference environment at `/repo` without ignore rules. -/
def repoEnv : Env Obj World := gitEnv "/repo" statusYaml (fun _ => false)

/-- The reference environment at `/repo` under the ignore rule `*.yml`. -/
def ignoringEnv : Env Obj World := gitEnv "/repo" statusYaml ymlIgnored

/-- What `filepath.Clean` has written when it has read the non-empty prefix `root` of a
path `root/...`, with the slash due before the next element. -/
def rootOut (root : List Char) : List Char :=
  let rooted : Bool := root.head? = some Separator
  let o := (cleanAll rooted (if rooted then root.tail else root)
    (if rooted then [Separator] else []) (if rooted then 1 else 0)).1
  o ++ sepIf rooted o

/-- The value stored under `key` in the `metadata` map of an object, when `metadata`
is present and is a map and holds the key. -/
def metadataField (obj : Obj) (key : String) : Option Value :=
  match Obj.get obj UnstructuredKeyMetadata with
  | some (.map md) => Obj.get md key
  | _ => none

def Value.isMap : Value → Bool
  | .map _ => true
  | _ => false

def Value.isStr : Value → Bool
  | .str _ => true
  | _ => false

/-- The key `metadata`, when present, holds a map, and `metadata.namespace` and
`metadata.name`, when present, hold strings. -/
def WellTyped (obj : Obj) : Prop :=
  (Obj.get obj UnstructuredKeyMetadata).all Value.isMap = true ∧
  (metadataField obj UnstructuredKeyNamespace).all Value.isStr = true ∧
  (metadataField obj UnstructuredKeyName).all Value.isStr = true

instance (obj : Obj) : Decidable (WellTyped obj) := by
  unfold WellTyped
  infer_instance

/-- One of the keys `metadata`, `metadata.namespace`, `metadata.name` is absent. -/
def MissingField (obj : Obj) : Prop :=
  Obj.get obj UnstructuredKeyMetadata = none ∨
  metadataField obj UnstructuredKeyNamespace = none ∨
  metadataField obj UnstructuredKeyName = none

/-- The object has a `metadata` map holding the strings `ns` and `name` under
`namespace` and `name`. -/
def Identifies (obj : Obj) (ns name : String) : Prop :=
  ∃ md, Obj.get obj UnstructuredKeyMetadata = some (.map md) ∧
    Obj.get md UnstructuredKeyNamespace = some (.str ns) ∧
    Obj.get md UnstructuredKeyName = some (.str name)

/-! # Theorems -/

/-! ## The main loop of `filepath.Clean` -/

theorem dropWhile_length_le (p : Char → Bool) (l : List Char) :
    (l.dropWhile p).length ≤ l.length := by
  induction l with
  | nil => simp
  | cons a l ih =>
    simp only [List.dropWhile_cons]
    split
    · simp only [List.length_cons]; omega
    · exact le_refl _

theorem cleanStep_length (rooted : Bool) (c : Char) (rest out : List Char) (dotdot : Nat) :
    (cleanStep rooted c rest out dotdot).1.length ≤ rest.length := by
  unfold cleanStep
  split_ifs with h1 h2 h3 h4 h5 <;> try (simp; done)
  · have hc : (decide (c ≠ Separator)) = true := by simpa using h1
    simp only [List.dropWhile_cons, hc, if_true]
    exact dropWhile_length_le _ _

theorem cleanLoop_fuel (rooted : Bool) :
    ∀ (fuel fuel' : Nat) (path out : List Char) (dotdot : Nat),
      path.length ≤ fuel → path.length ≤ fuel' →
      cleanLoop rooted fuel path out dotdot = cleanLoop rooted fuel' path out dotdot := by
  intro fuel
  induction fuel with
  | zero =>
    intro fuel' path out dotdot h _
    have : path = [] := List.length_eq_zero.mp (Nat.le_zero.mp h)
    subst this
    cases fuel' <;> simp [cleanLoop]
  | succ f ih =>
    intro fuel' path out dotdot h h'
    cases path with
    | nil => cases fuel' <;> simp [cleanLoop]
    | cons c rest =>
      cases fuel' with
      | zero => simp at h'
      | succ f' =>
        simp only [cleanLoop]
        have hl := cleanStep_length rooted c rest out dotdot
        simp only [List.length_cons] at h h'
        exact ih f' _ _ _ (by omega) (by omega)

theorem cleanAll_nil (rooted : Bool) (out : List Char) (dotdot : Nat) :
    cleanAll rooted [] out dotdot = (out, dotdot) := by
  simp [cleanAll, cleanLoop]

theorem cleanAll_cons (rooted : Bool) (c : Char) (rest out : List Char) (dotdot : Nat) :
    cleanAll rooted (c :: rest) out dotdot =
      cleanAll rooted (cleanStep rooted c rest out dotdot).1
        (cleanStep rooted c rest out dotdot).2.1 (cleanStep rooted c rest out dotdot).2.2 := by
  have hl := cleanStep_length rooted c rest out dotdot
  simp only [cleanAll, List.length_cons, cleanLoop]
  exact cleanLoop_fuel rooted _ _ _ _ _ hl (le_refl _)

theorem takeWhile_append_sep (l q : List Char) :
    (l ++ Separator :: q).takeWhile (fun x => x ≠ Separator) =
      l.takeWhile (fun x => x ≠ Separator) := by
  induction l with
  | nil => simp [List.takeWhile]
  | cons a l ih =>
    simp only [List.cons_append, List.takeWhile_cons]
    split
    · rw [ih]
    · rfl

theorem dropWhile_append_sep (l q : List Char) :
    (l ++ Separator :: q).dropWhile (fun x => x ≠ Separator) =
      l.dropWhile (fun x => x ≠ Separator) ++ Separator :: q := by
  induction l with
  | nil => simp [List.dropWhile]
  | cons a l ih =>
    simp only [List.cons_append, List.dropWhile_cons]
    split
    · rw [ih]
    · rfl

/-- Reading one element is blind to what follows the next separator. -/
theorem cleanStep_append (rooted : Bool) (c : Char) (p q out : List Char) (dotdot : Nat) :
    cleanStep rooted c (p ++ Separator :: q) out dotdot =
      ((cleanStep rooted c p out dotdot).1 ++ Separator :: q,
        (cleanStep rooted c p out dotdot).2) := by
  have e2 : ((p ++ Separator :: q) = [] ∨ (p ++ Separator :: q).head? = some Separator) ↔
      (p = [] ∨ p.head? = some Separator) := by
    cases p <;> simp
  have e3 : ((p ++ Separator :: q).head? = some '.' ∧
      ((p ++ Separator :: q).tail = [] ∨ (p ++ Separator :: q).tail.head? = some Separator)) ↔
      (p.head? = some '.' ∧ (p.tail = [] ∨ p.tail.head? = some Separator)) := by
    cases p with
    | nil => simp [Separator]
    | cons d p' => cases p' <;> simp
  have et : p.head? = some '.' → (p ++ Separator :: q).tail = p.tail ++ Separator :: q := by
    cases p <;> simp
  have ec : (c :: (p ++ Separator :: q)) = (c :: p) ++ Separator :: q := rfl
  unfold cleanStep
  rw [ec, takeWhile_append_sep, dropWhile_append_sep]
  by_cases h1 : c = Separator
  · simp [h1]
  · by_cases h2 : c = '.' ∧ (p = [] ∨ p.head? = some Separator)
    · have h2' : c = '.' ∧ ((p ++ Separator :: q) = [] ∨
          (p ++ Separator :: q).head? = some Separator) := ⟨h2.1, e2.mpr h2.2⟩
      rw [if_neg h1, if_pos h2', if_neg h1, if_pos h2]
    · have h2' : ¬ (c = '.' ∧ ((p ++ Separator :: q) = [] ∨
          (p ++ Separator :: q).head? = some Separator)) := fun h => h2 ⟨h.1, e2.mp h.2⟩
      by_cases h3 : c = '.' ∧ p.head? = some '.' ∧ (p.tail = [] ∨ p.tail.head? = some Separator)
      · have h3' : c = '.' ∧ (p ++ Separator :: q).head? = some '.' ∧
            ((p ++ Separator :: q).tail = [] ∨
              (p ++ Separator :: q).tail.head? = some Separator) := ⟨h3.1, e3.mpr h3.2⟩
        rw [if_neg h1, if_neg h2', if_pos h3', if_neg h1, if_neg h2, if_pos h3, et h3.2.1]
        split_ifs <;> rfl
      · have h3' : ¬ (c = '.' ∧ (p ++ Separator :: q).head? = some '.' ∧
            ((p ++ Separator :: q).tail = [] ∨
              (p ++ Separator :: q).tail.head? = some Separator)) :=
          fun h => h3 ⟨h.1, e3.mp h.2⟩
        rw [if_neg h1, if_neg h2', if_neg h3', if_neg h1, if_neg h2, if_neg h3]

/-- The loop run over `p/q` is the loop run over `p` and then over `q`. -/
theorem cleanAll_append (rooted : Bool) (q : List Char) :
    ∀ (n : Nat) (p out : List Char) (dotdot : Nat), p.length ≤ n →
      cleanAll rooted (p ++ Separator :: q) out dotdot =
        cleanAll rooted q (cleanAll rooted p out dotdot).1 (cleanAll rooted p out dotdot).2 := by
  intro n
  induction n with
  | zero =>
    intro p out dotdot h
    have : p = [] := List.length_eq_zero.mp (Nat.le_zero.mp h)
    subst this
    rw [List.nil_append, cleanAll_cons, cleanAll_nil]
    simp [cleanStep]
  | succ n ih =>
    intro p out dotdot h
    cases p with
    | nil =>
      rw [List.nil_append, cleanAll_cons, cleanAll_nil]
      simp [cleanStep]
    | cons c p' =>
      rw [List.cons_append, cleanAll_cons, cleanStep_append, cleanAll_cons rooted c p']
      have hl := cleanStep_length rooted c p' out dotdot
      simp only [List.length_cons] at h
      exact ih _ _ _ (by omega)

/-- A plain segment is copied to the output, after a slash where one is due. -/
theorem cleanAll_plain (rooted : Bool) (seg out : List Char) (dotdot : Nat)
    (h : PlainChars seg) :
    cleanAll rooted seg out dotdot = (out ++ sepIf rooted out ++ seg, dotdot) := by
  obtain ⟨h0, h1, h2, hs⟩ := h
  cases seg with
  | nil => exact absurd rfl h0
  | cons c s =>
    have hall : ∀ a ∈ c :: s, (decide (a ≠ Separator)) = true := by
      intro a ha
      have : a ≠ Separator := fun e => hs (e ▸ ha)
      simpa using this
    have htake : (c :: s).takeWhile (fun x => x ≠ Separator) = c :: s :=
      List.takeWhile_eq_self_iff.mpr hall
    have hdrop : (c :: s).dropWhile (fun x => x ≠ Separator) = [] :=
      List.dropWhile_eq_nil_iff.mpr hall
    have hc : c ≠ Separator := fun e => hs (by simp [e])
    have c2 : ¬ (c = '.' ∧ (s = [] ∨ s.head? = some Separator)) := by
      rintro ⟨rfl, hh | hh⟩
      · exact h1 (by rw [hh])
      · cases s with
        | nil => simp at hh
        | cons d t =>
          simp only [List.head?_cons, Option.some.injEq] at hh
          exact hs (by simp [hh])
    have c3 : ¬ (c = '.' ∧ s.head? = some '.' ∧ (s.tail = [] ∨ s.tail.head? = some Separator)) := by
      rintro ⟨rfl, hd, hh⟩
      cases s with
      | nil => simp at hd
      | cons d t =>
        simp only [List.head?_cons, Option.some.injEq] at hd
        subst hd
        simp only [List.tail_cons] at hh
        rcases hh with hh | hh
        · exact h2 (by rw [hh])
        · cases t with
          | nil => simp at hh
          | cons e u =>
            simp only [List.head?_cons, Option.some.injEq] at hh
            exact hs (by simp [hh])
    rw [cleanAll_cons]
    unfold cleanStep
    rw [if_neg hc, if_neg c2, if_neg c3, htake, hdrop, cleanAll_nil]

theorem sepIf_after (rooted : Bool) (seg out : List Char) (h : seg ≠ []) :
    sepIf rooted (out ++ sepIf rooted out ++ seg) = [Separator] := by
  have hl : 0 < seg.length := List.length_pos.mpr h
  have key : (rooted = true ∧ (out ++ sepIf rooted out ++ seg).length ≠ 1) ∨
      (¬ rooted = true ∧ (out ++ sepIf rooted out ++ seg).length ≠ 0) := by
    cases rooted
    · right
      refine ⟨by simp, ?_⟩
      simp only [List.length_append]
      omega
    · left
      refine ⟨rfl, ?_⟩
      by_cases h1 : out.length = 1
      · simp only [List.length_append]
        omega
      · have hs : sepIf true out = [Separator] := by
          unfold sepIf
          rw [if_pos]
          left
          exact ⟨rfl, h1⟩
        rw [hs]
        simp only [List.length_append, List.length_cons, List.length_nil]
        omega
  generalize sepIf rooted out = s at key ⊢
  unfold sepIf
  exact if_pos key

/-- The loop run over `p/seg`, for a plain segment `seg`. -/
theorem cleanAll_append_plain (rooted : Bool) (p seg out : List Char) (dotdot : Nat)
    (h : PlainChars seg) :
    cleanAll rooted (p ++ Separator :: seg) out dotdot =
      ((cleanAll rooted p out dotdot).1 ++ sepIf rooted (cleanAll rooted p out dotdot).1 ++ seg,
        (cleanAll rooted p out dotdot).2) := by
  rw [cleanAll_append rooted seg p.length p out dotdot (le_refl _), cleanAll_plain _ _ _ _ h]

theorem cleanAll_two (rooted : Bool) (p a b out : List Char) (dotdot : Nat)
    (ha : PlainChars a) (hb : PlainChars b) :
    cleanAll rooted (p ++ Separator :: a ++ Separator :: b) out dotdot =
      ((cleanAll rooted p out dotdot).1 ++ sepIf rooted (cleanAll rooted p out dotdot).1 ++ a ++
        Separator :: b, (cleanAll rooted p out dotdot).2) := by
  rw [cleanAll_append_plain _ _ _ _ _ hb, cleanAll_append_plain _ _ _ _ _ ha,
    sepIf_after _ _ _ ha.1]
  simp

theorem sepIf_of_two_le (rooted : Bool) (out : List Char) (h : 2 ≤ out.length) :
    sepIf rooted out = [Separator] := by
  unfold sepIf
  rw [if_pos]
  cases rooted
  · right
    exact ⟨by simp, by omega⟩
  · left
    exact ⟨rfl, by omega⟩

theorem cleanAll_three (rooted : Bool) (p a b c out : List Char) (dotdot : Nat)
    (ha : PlainChars a) (hb : PlainChars b) (hc : PlainChars c) :
    cleanAll rooted (p ++ Separator :: a ++ Separator :: b ++ Separator :: c) out dotdot =
      ((cleanAll rooted p out dotdot).1 ++ sepIf rooted (cleanAll rooted p out dotdot).1 ++ a ++
        Separator :: b ++ Separator :: c, (cleanAll rooted p out dotdot).2) := by
  rw [cleanAll_append_plain _ _ _ _ _ hc, cleanAll_two _ _ _ _ _ _ ha hb]
  have hl : 0 < b.length := List.length_pos.mpr hb.1
  have h2 : sepIf rooted ((cleanAll rooted p out dotdot).1 ++
      sepIf rooted (cleanAll rooted p out dotdot).1 ++ a ++ Separator :: b) = [Separator] :=
    sepIf_of_two_le _ _ (by simp only [List.length_append, List.length_cons]; omega)
  rw [h2]
  simp

theorem cleanData_append (root q : List Char) (h : root ≠ []) :
    cleanData (root ++ Separator :: q) =
      (let rooted : Bool := root.head? = some Separator
       let out := (cleanAll rooted ((if rooted then root.tail else root) ++ Separator :: q)
          (if rooted then [Separator] else []) (if rooted then 1 else 0)).1
       if out.length = 0 then ['.'] else out) := by
  cases root with
  | nil => exact absurd rfl h
  | cons c t =>
    unfold cleanData cleanAll
    by_cases hc : c = Separator
    · simp [hc]
    · simp [hc]

theorem cleanData_root_two (root a b : List Char) (h : root ≠ [])
    (ha : PlainChars a) (hb : PlainChars b) :
    cleanData (root ++ Separator :: a ++ Separator :: b) = rootOut root ++ a ++ Separator :: b := by
  have e : root ++ Separator :: a ++ Separator :: b = root ++ Separator :: (a ++ Separator :: b) := by
    simp
  rw [e, cleanData_append _ _ h]
  simp only []
  have e2 : ∀ r : List Char, r ++ Separator :: (a ++ Separator :: b) =
      r ++ Separator :: a ++ Separator :: b := by
    intro r; simp
  rw [e2, cleanAll_two _ _ _ _ _ _ ha hb]
  have hl : 0 < a.length := List.length_pos.mpr ha.1
  rw [if_neg]
  · rfl
  · simp only [List.length_append, List.length_cons]
    omega

theorem cleanData_root_three (root a b c : List Char) (h : root ≠ [])
    (ha : PlainChars a) (hb : PlainChars b) (hc : PlainChars c) :
    cleanData (root ++ Separator :: a ++ Separator :: b ++ Separator :: c) =
      rootOut root ++ a ++ Separator :: b ++ Separator :: c := by
  have e : root ++ Separator :: a ++ Separator :: b ++ Separator :: c =
      root ++ Separator :: (a ++ Separator :: b ++ Separator :: c) := by
    simp
  rw [e, cleanData_append _ _ h]
  simp only []
  have e2 : ∀ r : List Char, r ++ Separator :: (a ++ Separator :: b ++ Separator :: c) =
      r ++ Separator :: a ++ Separator :: b ++ Separator :: c := by
    intro r; simp
  rw [e2, cleanAll_three _ _ _ _ _ _ _ ha hb hc]
  have hl : 0 < a.length := List.length_pos.mpr ha.1
  rw [if_neg]
  · rfl
  · simp only [List.length_append, List.length_cons]
    omega

theorem cleanData_root_one (root a : List Char) (h : root ≠ []) (ha : PlainChars a) :
    cleanData (root ++ Separator :: a) = rootOut root ++ a := by
  rw [cleanData_append _ _ h]
  simp only []
  rw [cleanAll_append_plain _ _ _ _ _ ha]
  have hl : 0 < a.length := List.length_pos.mpr ha.1
  rw [if_neg]
  · rfl
  · simp only [List.length_append]
    omega

theorem cleanData_rooted (t : List Char) :
    cleanData (Separator :: t) =
      if (cleanAll true t [Separator] 1).1.length = 0 then ['.']
      else (cleanAll true t [Separator] 1).1 := by
  simp [cleanData, cleanAll]

theorem cleanData_unrooted (c : Char) (t : List Char) (hc : c ≠ Separator) :
    cleanData (c :: t) =
      if (cleanAll false (c :: t) [] 0).1.length = 0 then ['.']
      else (cleanAll false (c :: t) [] 0).1 := by
  simp [cleanData, cleanAll, hc]

theorem rootOut_rooted (t : List Char) :
    rootOut (Separator :: t) =
      (cleanAll true t [Separator] 1).1 ++ sepIf true (cleanAll true t [Separator] 1).1 := by
  simp [rootOut]

theorem rootOut_unrooted (c : Char) (t : List Char) (hc : c ≠ Separator) :
    rootOut (c :: t) =
      (cleanAll false (c :: t) [] 0).1 ++ sepIf false (cleanAll false (c :: t) [] 0).1 := by
  simp [rootOut, hc]

theorem cleanData_plain (a : List Char) (ha : PlainChars a) : cleanData a = a := by
  have hne : a ≠ [] := ha.1
  cases a with
  | nil => exact absurd rfl hne
  | cons c t =>
    have hc : c ≠ Separator := fun e => ha.2.2.2 (by simp [e])
    rw [cleanData_unrooted c t hc, cleanAll_plain false (c :: t) [] 0 ha]
    simp [sepIf]

theorem rootOut_of_clean (root : List Char) (h1 : cleanData root = root) (h2 : root ≠ ['.'])
    (h3 : root ≠ [Separator]) : rootOut root = root ++ [Separator] := by
  cases root with
  | nil => simp [cleanData] at h1
  | cons c t =>
    by_cases hc : c = Separator
    · subst hc
      rw [cleanData_rooted] at h1
      rw [rootOut_rooted]
      split_ifs at h1 with h0
      · exact absurd h1.symm h2
      · rw [h1]
        congr 1
        unfold sepIf
        rw [if_pos]
        left
        refine ⟨rfl, ?_⟩
        intro hl
        apply h3
        cases t with
        | nil => rfl
        | cons d u => simp at hl
    · rw [cleanData_unrooted c t hc] at h1
      rw [rootOut_unrooted c t hc]
      split_ifs at h1 with h0
      · exact absurd h1.symm h2
      · have hs : sepIf false (c :: t) = [Separator] := by simp [sepIf]
        rw [h1, hs]

theorem PlainSegment.chars {s : String} (h : PlainSegment s) : PlainChars s.data := by
  obtain ⟨h0, h1, h2, h3⟩ := h
  refine ⟨?_, ?_, ?_, h3⟩
  · intro e; exact h0 (String.ext e)
  · intro e; exact h1 (String.ext e)
  · intro e; exact h2 (String.ext e)

/-- The file name `name.yml` is a plain segment whenever `name` has no separator. -/
theorem fileName_plain {name : String} (h : NoSeparator name) :
    PlainChars (name ++ ".yml").data := by
  have hd : (name ++ ".yml").data = name.data ++ ['.', 'y', 'm', 'l'] := by
    rw [String.data_append]
  rw [hd]
  refine ⟨by simp, ?_, ?_, ?_⟩
  · intro e
    have := congrArg List.length e
    simp at this
  · intro e
    have := congrArg List.length e
    simp at this
  · intro hm
    rcases List.mem_append.mp hm with hm | hm
    · exact h hm
    · simp [Separator] at hm

theorem Join_cons_ne (e : String) (es : List String) (h : e ≠ "") :
    Join (e :: es) = Clean (String.intercalate "/" (e :: es)) := by
  simp [Join, List.dropWhile, h]

theorem Join_nil_cons (es : List String) : Join ("" :: es) = Join es := by
  simp [Join, List.dropWhile]

theorem Join_rel_two (a b : String) (ha : PlainSegment a) (hb : PlainSegment b) :
    Join [a, b] = a ++ "/" ++ b := by
  rw [Join_cons_ne _ _ ha.1]
  apply String.ext
  show cleanData (a ++ "/" ++ b).data = _
  have e : (a ++ "/" ++ b).data = a.data ++ Separator :: b.data := by
    simp [String.data_append, Separator]
  have hr : rootOut a.data = a.data ++ [Separator] :=
    rootOut_of_clean _ (cleanData_plain _ ha.chars) ha.chars.2.1
      (fun e1 => ha.chars.2.2.2 (by rw [e1]; simp))
  rw [e, cleanData_root_one _ _ ha.chars.1 hb.chars, hr]
  simp

theorem Join_root_two (root a b : String) (h : root ≠ "")
    (ha : PlainSegment a) (hb : PlainSegment b) :
    Join [root, a, b] = String.mk (rootOut root.data ++ a.data ++ Separator :: b.data) := by
  rw [Join_cons_ne _ _ h]
  apply String.ext
  show cleanData (root ++ "/" ++ a ++ "/" ++ b).data = _
  have e : (root ++ "/" ++ a ++ "/" ++ b).data =
      root.data ++ Separator :: a.data ++ Separator :: b.data := by
    simp [String.data_append, Separator]
  have hr : root.data ≠ [] := fun e0 => h (String.ext e0)
  rw [e, cleanData_root_two _ _ _ hr ha.chars hb.chars]

theorem Join_root_three (root a b c : String) (h : root ≠ "")
    (ha : PlainSegment a) (hb : PlainSegment b) (hc : PlainChars c.data) :
    Join [root, a, b, c] =
      String.mk (rootOut root.data ++ a.data ++ Separator :: b.data ++ Separator :: c.data) := by
  rw [Join_cons_ne _ _ h]
  apply String.ext
  show cleanData (root ++ "/" ++ a ++ "/" ++ b ++ "/" ++ c).data = _
  have e : (root ++ "/" ++ a ++ "/" ++ b ++ "/" ++ c).data =
      root.data ++ Separator :: a.data ++ Separator :: b.data ++ Separator :: c.data := by
    simp [String.data_append, Separator]
  have hr : root.data ≠ [] := fun e0 => h (String.ext e0)
  rw [e, cleanData_root_three _ _ _ _ hr ha.chars hb.chars hc]

theorem rootOut_plain (a : String) (ha : PlainSegment a) :
    rootOut a.data = a.data ++ [Separator] :=
  rootOut_of_clean _ (cleanData_plain _ ha.chars) ha.chars.2.1
    (fun e1 => ha.chars.2.2.2 (by rw [e1]; simp))

theorem Join_rel_three (a b c : String) (ha : PlainSegment a) (hb : PlainSegment b)
    (hc : PlainChars c.data) : Join [a, b, c] = a ++ "/" ++ b ++ "/" ++ c := by
  rw [Join_cons_ne _ _ ha.1]
  apply String.ext
  show cleanData (a ++ "/" ++ b ++ "/" ++ c).data = _
  have e : (a ++ "/" ++ b ++ "/" ++ c).data =
      a.data ++ Separator :: b.data ++ Separator :: c.data := by
    simp [String.data_append, Separator]
  rw [e, cleanData_root_two _ _ _ ha.chars.1 hb.chars hc, rootOut_plain a ha]
  simp

theorem CleanRoot.ne_empty {root : String} (h : CleanRoot root) : root ≠ "" := by
  intro e
  have h1 := h.1
  rw [e] at h1
  exact absurd h1 (by decide)

theorem CleanRoot.rootOut {root : String} (h : CleanRoot root) :
    Kit.rootOut root.data = root.data ++ [Separator] := by
  apply rootOut_of_clean
  · have h1 := congrArg String.data h.1
    exact h1
  · intro e
    exact h.2.1 (String.ext e)
  · intro e
    exact h.2.2 (String.ext e)

theorem Join_abs_two (root a b : String) (h : CleanRoot root)
    (ha : PlainSegment a) (hb : PlainSegment b) :
    Join [root, a, b] = root ++ "/" ++ a ++ "/" ++ b := by
  rw [Join_root_two _ _ _ h.ne_empty ha hb, h.rootOut]
  apply String.ext
  simp [String.data_append, Separator]

theorem Join_abs_three (root a b c : String) (h : CleanRoot root)
    (ha : PlainSegment a) (hb : PlainSegment b) (hc : PlainChars c.data) :
    Join [root, a, b, c] = root ++ "/" ++ a ++ "/" ++ b ++ "/" ++ c := by
  rw [Join_root_three _ _ _ _ h.ne_empty ha hb hc, h.rootOut]
  apply String.ext
  simp [String.data_append, Separator]

/-- The absolute file path is the relative one behind a prefix that only the root
directory determines. -/
theorem Join_abs_factor (root : String) :
    ∃ pre : List Char, ∀ a b c : String, PlainSegment a → PlainSegment b → PlainChars c.data →
      (Join [root, a, b, c]).data = pre ++ (Join [a, b, c]).data := by
  by_cases h : root = ""
  · refine ⟨[], ?_⟩
    intro a b c _ _ _
    rw [h, Join_nil_cons]
    simp
  · refine ⟨rootOut root.data, ?_⟩
    intro a b c ha hb hc
    rw [Join_root_three _ _ _ _ h ha hb hc, Join_rel_three _ _ _ ha hb hc]
    simp [String.data_append, Separator]

/-! ## `GetNamespaceName` and `GetPaths` -/

theorem GetNamespaceName_of_identifies {obj : Obj} {ns name : String}
    (h : Identifies obj ns name) : GetNamespaceName obj = .ok (ns, name) := by
  obtain ⟨md, h1, h2, h3⟩ := h
  simp [GetNamespaceName, h1, h2, h3]

theorem GetPaths_of_identifies (rootDir group : String) {obj : Obj} {ns name : String}
    (h : Identifies obj ns name) :
    GetPaths rootDir group obj = .ok
      { Directory :=
          { Relative := Join [ns, group]
            Absolute := Join [rootDir, ns, group] }
        File :=
          { Relative := Join [ns, group, name ++ ".yml"]
            Absolute := Join [rootDir, ns, group, name ++ ".yml"] } } := by
  simp [GetPaths, GetNamespaceName_of_identifies h]

theorem identified_identifies (ns name : String) : Identifies (identified ns name) ns name :=
  ⟨_, rfl, rfl, rfl⟩

/-- C1 (amended): for every root directory that is a clean path other than `.` and `/`,
every group and every object whose metadata is a map with string namespace `ns` and
string name `name`, where `ns` and `group` are plain segments (not empty, not `.`, not
`..`, no separator) and `name` has no separator, `GetPaths` succeeds and returns
`Directory.Relative = ns/group`, `File.Relative = Directory.Relative/name.yml`,
`Directory.Absolute = rootDir/ns/group` and `File.Absolute = rootDir/ns/group/name.yml`,
the segments being used verbatim. -/
theorem GetPaths_layout (rootDir group ns name : String) (obj : Obj)
    (hobj : Identifies obj ns name) (hroot : CleanRoot rootDir)
    (hns : PlainSegment ns) (hgroup : PlainSegment group) (hname : NoSeparator name) :
    GetPaths rootDir group obj = .ok
      { Directory :=
          { Relative := ns ++ "/" ++ group
            Absolute := rootDir ++ "/" ++ ns ++ "/" ++ group }
        File :=
          { Relative := ns ++ "/" ++ group ++ "/" ++ (name ++ ".yml")
            Absolute := rootDir ++ "/" ++ ns ++ "/" ++ group ++ "/" ++ (name ++ ".yml") } } := by
  rw [GetPaths_of_identifies rootDir group hobj, Join_rel_two _ _ hns hgroup,
    Join_abs_two _ _ _ hroot hns hgroup, Join_rel_three _ _ _ hns hgroup (fileName_plain hname),
    Join_abs_three _ _ _ _ hroot hns hgroup (fileName_plain hname)]

theorem GetPaths_layout_witness :
    GetPaths "/repo" "pod" (identified "default" "web-1") = .ok
      { Directory :=
          { Relative := "default" ++ "/" ++ "pod"
            Absolute := "/repo" ++ "/" ++ "default" ++ "/" ++ "pod" }
        File :=
          { Relative := "default" ++ "/" ++ "pod" ++ "/" ++ ("web-1" ++ ".yml")
            Absolute := "/repo" ++ "/" ++ "default" ++ "/" ++ "pod" ++ "/" ++ ("web-1" ++ ".yml") } } :=
  GetPaths_layout "/repo" "pod" "default" "web-1" _ (identified_identifies _ _)
    (by decide) (by decide) (by decide) (by decide)

/-- C1 (as stated) fails: the segments are not used verbatim.  An empty namespace is
dropped, a root directory `.` is dropped, a group `..` cancels the namespace, and a
doubled separator in the name is collapsed. -/
theorem GetPaths_not_verbatim :
    (GetPaths "/repo" "pod" (identified "" "web-1") = .ok
        ⟨⟨"pod", "/repo/pod"⟩, ⟨"pod/web-1.yml", "/repo/pod/web-1.yml"⟩⟩ ∧
      ("pod" : String) ≠ "" ++ "/" ++ "pod") ∧
    (GetPaths "." "pod" (identified "default" "web-1") = .ok
        ⟨⟨"default/pod", "default/pod"⟩, ⟨"default/pod/web-1.yml", "default/pod/web-1.yml"⟩⟩ ∧
      ("default/pod" : String) ≠ "." ++ "/" ++ "default" ++ "/" ++ "pod") ∧
    (GetPaths "/repo" ".." (identified "default" "web-1") = .ok
        ⟨⟨".", "/repo"⟩, ⟨"web-1.yml", "/repo/web-1.yml"⟩⟩ ∧
      ("." : String) ≠ "default" ++ "/" ++ "..") ∧
    (GetPaths "/repo" "pod" (identified "default" "a//b") = .ok
        ⟨⟨"default/pod", "/repo/default/pod"⟩,
          ⟨"default/pod/a/b.yml", "/repo/default/pod/a/b.yml"⟩⟩ ∧
      ("default/pod/a/b.yml" : String) ≠ "default/pod" ++ "/" ++ ("a//b" ++ ".yml")) := by
  decide

theorem split_at_sep : ∀ (a a' x x' : List Char), Separator ∉ a → Separator ∉ a' →
    a ++ Separator :: x = a' ++ Separator :: x' → a = a' ∧ x = x' := by
  intro a
  induction a with
  | nil =>
    intro a' x x' _ h' e
    cases a' with
    | nil => simpa using e
    | cons d u =>
      simp only [List.nil_append, List.cons_append, List.cons.injEq] at e
      exact absurd (by simp [e.1]) h'
  | cons c t ih =>
    intro a' x x' h h' e
    cases a' with
    | nil =>
      simp only [List.nil_append, List.cons_append, List.cons.injEq] at e
      exact absurd (by simp [e.1]) h
    | cons d u =>
      simp only [List.cons_append, List.cons.injEq] at e
      have := ih u x x' (fun m => h (List.mem_cons_of_mem _ m))
        (fun m => h' (List.mem_cons_of_mem _ m)) e.2
      exact ⟨by rw [e.1, this.1], this.2⟩

/-- The relative file path determines namespace, group and name. -/
theorem Join_rel_three_inj (ns group name ns' group' name' : String)
    (hns : PlainSegment ns) (hgroup : PlainSegment group) (hname : NoSeparator name)
    (hns' : PlainSegment ns') (hgroup' : PlainSegment group') (hname' : NoSeparator name')
    (e : Join [ns, group, name ++ ".yml"] = Join [ns', group', name' ++ ".yml"]) :
    (ns, group, name) = (ns', group', name') := by
  rw [Join_rel_three _ _ _ hns hgroup (fileName_plain hname),
    Join_rel_three _ _ _ hns' hgroup' (fileName_plain hname')] at e
  have ed := congrArg String.data e
  have n1 : (ns ++ "/" ++ group ++ "/" ++ (name ++ ".yml")).data =
      ns.data ++ Separator :: (group.data ++ Separator :: (name.data ++ ".yml".data)) := by
    simp [String.data_append, Separator]
  have n2 : (ns' ++ "/" ++ group' ++ "/" ++ (name' ++ ".yml")).data =
      ns'.data ++ Separator :: (group'.data ++ Separator :: (name'.data ++ ".yml".data)) := by
    simp [String.data_append, Separator]
  rw [n1, n2] at ed
  obtain ⟨e1, ed⟩ := split_at_sep _ _ _ _ hns.2.2.2 hns'.2.2.2 ed
  obtain ⟨e2, ed⟩ := split_at_sep _ _ _ _ hgroup.2.2.2 hgroup'.2.2.2 ed
  have e3 := List.append_cancel_right ed
  rw [String.ext e1, String.ext e2, String.ext e3]

/-- C2 (amended): for every root directory, two identities whose namespaces and groups
are plain segments and whose names have no separator, and which differ in a
component, get different relative and different absolute file paths. -/
theorem GetPaths_injective (rootDir group group' ns ns' name name' : String) (obj obj' : Obj)
    (paths paths' : PathList)
    (hobj : Identifies obj ns name) (hobj' : Identifies obj' ns' name')
    (hns : PlainSegment ns) (hgroup : PlainSegment group) (hname : NoSeparator name)
    (hns' : PlainSegment ns') (hgroup' : PlainSegment group') (hname' : NoSeparator name')
    (hp : GetPaths rootDir group obj = .ok paths)
    (hp' : GetPaths rootDir group' obj' = .ok paths')
    (hne : (ns, group, name) ≠ (ns', group', name')) :
    paths.File.Relative ≠ paths'.File.Relative ∧ paths.File.Absolute ≠ paths'.File.Absolute := by
  rw [GetPaths_of_identifies rootDir group hobj] at hp
  rw [GetPaths_of_identifies rootDir group' hobj'] at hp'
  injection hp with hp
  injection hp' with hp'
  subst hp
  subst hp'
  have key := Join_rel_three_inj ns group name ns' group' name' hns hgroup hname hns' hgroup' hname'
  constructor
  · intro e
    exact hne (key e)
  · intro e
    obtain ⟨pre, hpre⟩ := Join_abs_factor rootDir
    have e1 := hpre ns group (name ++ ".yml") hns hgroup (fileName_plain hname)
    have e2 := hpre ns' group' (name' ++ ".yml") hns' hgroup' (fileName_plain hname')
    have ed := congrArg String.data e
    simp only [] at ed
    rw [e1, e2] at ed
    exact hne (key (String.ext (List.append_cancel_left ed)))

theorem GetPaths_injective_witness :
    ("default/pod/web-1.yml" : String) ≠ "default/pod/web-2.yml" ∧
      ("/repo/default/pod/web-1.yml" : String) ≠ "/repo/default/pod/web-2.yml" :=
  GetPaths_injective "/repo" "pod" "pod" "default" "default" "web-1" "web-2"
    (identified "default" "web-1") (identified "default" "web-2")
    ⟨⟨"default/pod", "/repo/default/pod"⟩, ⟨"default/pod/web-1.yml", "/repo/default/pod/web-1.yml"⟩⟩
    ⟨⟨"default/pod", "/repo/default/pod"⟩, ⟨"default/pod/web-2.yml", "/repo/default/pod/web-2.yml"⟩⟩
    (identified_identifies _ _) (identified_identifies _ _)
    (by decide) (by decide) (by decide) (by decide) (by decide) (by decide)
    (by decide) (by decide) (by decide)

/-- C2 (as stated) fails: different identities can share one file path.  A separator
moves between namespace and group, an empty or `.` segment is dropped, and a group
`..` cancels the namespace. -/
theorem GetPaths_collisions :
    (("a/b", "c", "n") ≠ (("a", "b/c", "n") : String × String × String) ∧
      GetPaths "/repo" "c" (identified "a/b" "n") = .ok
        ⟨⟨"a/b/c", "/repo/a/b/c"⟩, ⟨"a/b/c/n.yml", "/repo/a/b/c/n.yml"⟩⟩ ∧
      GetPaths "/repo" "b/c" (identified "a" "n") = .ok
        ⟨⟨"a/b/c", "/repo/a/b/c"⟩, ⟨"a/b/c/n.yml", "/repo/a/b/c/n.yml"⟩⟩) ∧
    (("", "x", "n") ≠ (("x", ".", "n") : String × String × String) ∧
      GetPaths "/repo" "x" (identified "" "n") = .ok
        ⟨⟨"x", "/repo/x"⟩, ⟨"x/n.yml", "/repo/x/n.yml"⟩⟩ ∧
      GetPaths "/repo" "." (identified "x" "n") = .ok
        ⟨⟨"x", "/repo/x"⟩, ⟨"x/n.yml", "/repo/x/n.yml"⟩⟩) ∧
    (("a", "..", "n") ≠ (("b", "..", "n") : String × String × String) ∧
      GetPaths "/repo" ".." (identified "a" "n") = .ok
        ⟨⟨".", "/repo"⟩, ⟨"n.yml", "/repo/n.yml"⟩⟩ ∧
      GetPaths "/repo" ".." (identified "b" "n") = .ok
        ⟨⟨".", "/repo"⟩, ⟨"n.yml", "/repo/n.yml"⟩⟩) := by
  decide

/-! ### Errors and panics of the field extraction -/

theorem GetPaths_err_iff (rootDir group : String) (obj : Obj) :
    (∃ e, GetPaths rootDir group obj = .err e) ↔ ∃ e, GetNamespaceName obj = .err e := by
  unfold GetPaths
  cases h : GetNamespaceName obj with
  | ok a => simp
  | err e => simp
  | panic v => simp

theorem GetPaths_ok_iff (rootDir group : String) (obj : Obj) :
    (∃ p, GetPaths rootDir group obj = .ok p) ↔ ∃ a, GetNamespaceName obj = .ok a := by
  unfold GetPaths
  cases h : GetNamespaceName obj with
  | ok a => simp
  | err e => simp
  | panic v => simp

/-- On well-typed objects the extraction fails exactly when a field is absent, and
succeeds otherwise. -/
theorem GetNamespaceName_wellTyped (obj : Obj) (h : WellTyped obj) :
    ((∃ e, GetNamespaceName obj = .err e) ↔ MissingField obj) ∧
    ((∃ a, GetNamespaceName obj = .ok a) ↔ ¬ MissingField obj) := by
  unfold WellTyped MissingField metadataField at *
  unfold GetNamespaceName
  obtain ⟨h1, h2, h3⟩ := h
  cases hm : Obj.get obj UnstructuredKeyMetadata with
  | none => simp
  | some v =>
    rw [hm] at h1 h2 h3
    cases v with
    | map md =>
      simp only [] at h2 h3
      cases hn : Obj.get md UnstructuredKeyNamespace with
      | none => simp [hn]
      | some w =>
        rw [hn] at h2
        cases w with
        | str ns =>
          cases hk : Obj.get md UnstructuredKeyName with
          | none => simp [hn, hk]
          | some u =>
            rw [hk] at h3
            cases u with
            | str name => simp [hn, hk]
            | _ => simp [Value.isStr] at h3
        | _ => simp [Value.isStr] at h2
    | _ => simp [Value.isMap] at h1

/-- C5: on an object whose `metadata` (when present) is a map and whose namespace and
name (when present) are strings, `GetPaths` returns an error if and only if
`metadata`, `metadata.namespace` or `metadata.name` is absent, and it succeeds if and
only if none is: no other validation is made, so it succeeds for every string
namespace and name, whatever they contain. -/
theorem GetPaths_error_iff_missing (rootDir group : String) (obj : Obj) (h : WellTyped obj) :
    ((∃ e, GetPaths rootDir group obj = .err e) ↔ MissingField obj) ∧
    ((∃ p, GetPaths rootDir group obj = .ok p) ↔ ¬ MissingField obj) ∧
    (∀ ns name, Identifies obj ns name → ∃ p, GetPaths rootDir group obj = .ok p) := by
  refine ⟨?_, ?_, ?_⟩
  · rw [GetPaths_err_iff]
    exact (GetNamespaceName_wellTyped obj h).1
  · rw [GetPaths_ok_iff]
    exact (GetNamespaceName_wellTyped obj h).2
  · intro ns name hid
    exact ⟨_, GetPaths_of_identifies rootDir group hid⟩

theorem GetPaths_error_iff_missing_witness :
    ((∃ e, GetPaths "/repo" "a/../.." (identified "" "../../etc/passwd") = .err e) ↔
        MissingField (identified "" "../../etc/passwd")) ∧
    ((∃ p, GetPaths "/repo" "a/../.." (identified "" "../../etc/passwd") = .ok p) ↔
        ¬ MissingField (identified "" "../../etc/passwd")) ∧
    (∀ ns name, Identifies (identified "" "../../etc/passwd") ns name →
      ∃ p, GetPaths "/repo" "a/../.." (identified "" "../../etc/passwd") = .ok p) :=
  GetPaths_error_iff_missing "/repo" "a/../.." (identified "" "../../etc/passwd") (by decide)

/-- C6 (the code at the failing inputs): a `metadata` that is not a map, a namespace
that is not a string and a name that is not a string each make `GetNamespaceName`
panic instead of returning an error, and the panic passes through `GetPaths`, `Write`
and `Delete`. -/
theorem GetNamespaceName_panics :
    GetNamespaceName [("metadata", .str "x")] =
      .panic "interface conversion: interface \x7b\x7d is string, not map[string]interface \x7b\x7d" ∧
    GetNamespaceName [("metadata", .map [("namespace", .int 5), ("name", .str "web-1")])] =
      .panic "interface conversion: interface \x7b\x7d is int64, not string" ∧
    GetNamespaceName [("metadata", .map [("namespace", .str "default"), ("name", .null)])] =
      .panic "interface conversion: interface \x7b\x7d is nil, not string" ∧
    GetPaths "/repo" "pod" [("metadata", .str "x")] =
      .panic "interface conversion: interface \x7b\x7d is string, not map[string]interface \x7b\x7d" ∧
    repoClient.Write repoEnv "pod" [("metadata", .str "x")] storedRepo =
      (.panic "interface conversion: interface \x7b\x7d is string, not map[string]interface \x7b\x7d",
        storedRepo) ∧
    repoClient.Delete repoEnv "pod" [("metadata", .str "x")] storedRepo =
      (.panic "interface conversion: interface \x7b\x7d is string, not map[string]interface \x7b\x7d",
        storedRepo) := by
  decide

/-! ## `Commit`, `Write` and `Delete` over any environment -/

section StoreTheorems

variable {ρ σ : Type}

/-- The record of one `Commit` call: on success either a clean status and nothing
else, or a status that is not clean followed by one commit with the given message; on
failure at most a status that is not clean. -/
theorem Commit_record (env : Env ρ σ) (c : Client) (file message : String) (s : σ)
    (log : List Event) :
    ((c.Commit (recording env) file message (s, log)).1 = .ok () ∧
      ((c.Commit (recording env) file message (s, log)).2.2 = log ++ [.status true] ∨
        (c.Commit (recording env) file message (s, log)).2.2 =
          log ++ [.status false, .commit message])) ∨
    ((c.Commit (recording env) file message (s, log)).1 ≠ .ok () ∧
      ((c.Commit (recording env) file message (s, log)).2.2 = log ∨
        (c.Commit (recording env) file message (s, log)).2.2 = log ++ [.status false])) := by
  unfold Client.Commit
  simp only [recording]
  cases hw : env.Worktree s with
  | some e => simp
  | none =>
    rcases hs : env.Status s with ⟨e | st, s1⟩
    · simp
    · by_cases hc : st.IsClean = true
      · simp [hc]
      · rcases ha : env.Add file s1 with ⟨_ | e, s2⟩
        · rcases hm : env.Commit message { Name := "John Doe", Email := "john@doe.org" } s2 with
            ⟨e | h, s3⟩
          · simp [hc, ha, hm]
          · simp [hc, ha, hm]
        · simp [hc, ha]

theorem recording_ToUnstructured (env : Env ρ σ) (obj : ρ) :
    (recording env).ToUnstructured obj = env.ToUnstructured obj := rfl

theorem recording_Marshal (env : Env ρ σ) (u : Obj) :
    (recording env).Marshal u = env.Marshal u := rfl

theorem recording_StatIsNotExist (env : Env ρ σ) (name : String) (s : σ × List Event) :
    (recording env).StatIsNotExist name s = env.StatIsNotExist name s.1 := rfl

theorem recording_MkdirAll (env : Env ρ σ) (path : String) (s : σ × List Event) :
    (recording env).MkdirAll path s = ((env.MkdirAll path s.1).1, (env.MkdirAll path s.1).2, s.2) :=
  rfl

theorem recording_OpenFile (env : Env ρ σ) (name : String) (s : σ × List Event) :
    (recording env).OpenFile name s = ((env.OpenFile name s.1).1, (env.OpenFile name s.1).2, s.2) :=
  rfl

theorem recording_FileWrite (env : Env ρ σ) (name data : String) (s : σ × List Event) :
    (recording env).FileWrite name data s =
      ((env.FileWrite name data s.1).1, (env.FileWrite name data s.1).2, s.2) := rfl

theorem recording_Remove (env : Env ρ σ) (name : String) (s : σ × List Event) :
    (recording env).Remove name s = ((env.Remove name s.1).1, (env.Remove name s.1).2, s.2) :=
  rfl

/-- The record of one `Write` call. -/
theorem Write_record (env : Env ρ σ) (c : Client) (group : String) (obj : ρ) (s : σ) :
    ((c.Write (recording env) group obj (s, [])).1 = .ok () ∧
      ((c.Write (recording env) group obj (s, [])).2.2 = [.status true] ∨
        ∃ u paths, env.ToUnstructured obj = .ok u ∧ GetPaths c.rootDir group u = .ok paths ∧
          (c.Write (recording env) group obj (s, [])).2.2 =
            [.status false, .commit ("Object changed: " ++ paths.File.Relative)])) ∨
    ((c.Write (recording env) group obj (s, [])).1 ≠ .ok () ∧
      ((c.Write (recording env) group obj (s, [])).2.2 = [] ∨
        (c.Write (recording env) group obj (s, [])).2.2 = [.status false])) := by
  cases hu : env.ToUnstructured obj with
  | error e =>
    have e1 : c.Write (recording env) group obj (s, []) =
        (.err ("failed to convert to unstructured object: " ++ e), s, []) := by
      unfold Client.Write
      simp [recording_ToUnstructured, hu]
    rw [e1]; simp
  | ok u =>
    cases hp : GetPaths c.rootDir group u with
    | panic v =>
      have e1 : c.Write (recording env) group obj (s, []) = (.panic v, s, []) := by
        unfold Client.Write
        simp [recording_ToUnstructured, hu, hp]
      rw [e1]; simp
    | err e =>
      have e1 : c.Write (recording env) group obj (s, []) =
          (.err ("failed to get paths: " ++ e), s, []) := by
        unfold Client.Write
        simp [recording_ToUnstructured, hu, hp]
      rw [e1]; simp
    | ok paths =>
      cases hm : env.Marshal u with
      | error e =>
        have e1 : c.Write (recording env) group obj (s, []) =
            (.err ("failed to marshal to yaml: " ++ e), s, []) := by
          unfold Client.Write
          simp [recording_ToUnstructured, recording_Marshal, hu, hp, hm]
        rw [e1]; simp
      | ok data =>
        rcases hd : (if env.StatIsNotExist paths.Directory.Absolute s
            then env.MkdirAll paths.Directory.Absolute s else (none, s)) with ⟨_ | e, s1⟩
        · rcases ho : env.OpenFile paths.File.Absolute s1 with ⟨_ | e, s2⟩
          · rcases hw : env.FileWrite paths.File.Absolute data s2 with ⟨_ | e, s3⟩
            · have e1 : c.Write (recording env) group obj (s, []) =
                  c.Commit (recording env) paths.File.Relative
                    ("Object changed: " ++ paths.File.Relative) (s3, []) := by
                unfold Client.Write
                simp only [recording_ToUnstructured, recording_Marshal, recording_StatIsNotExist,
                  recording_MkdirAll, recording_OpenFile, recording_FileWrite, hu, hp, hm]
                split_ifs at hd ⊢ <;>
                  first
                    | (simp [hd, ho, hw]; done)
                    | (simp at hd; subst hd; simp [ho, hw])
              rw [e1]
              rcases Commit_record env c paths.File.Relative
                ("Object changed: " ++ paths.File.Relative) s3 [] with ⟨h1, h2 | h2⟩ | ⟨h1, h2⟩
              · exact Or.inl ⟨h1, Or.inl (by simpa using h2)⟩
              · exact Or.inl ⟨h1, Or.inr ⟨u, paths, rfl, hp, by simpa using h2⟩⟩
              · exact Or.inr ⟨h1, by simpa using h2⟩
            · have e1 : c.Write (recording env) group obj (s, []) =
                  (.err ("failed to write to file: " ++ e), s3, []) := by
                unfold Client.Write
                simp only [recording_ToUnstructured, recording_Marshal, recording_StatIsNotExist,
                  recording_MkdirAll, recording_OpenFile, recording_FileWrite, hu, hp, hm]
                split_ifs at hd ⊢ <;>
                  first
                    | (simp [hd, ho, hw]; done)
                    | (simp at hd; subst hd; simp [ho, hw])
              rw [e1]; simp
          · have e1 : c.Write (recording env) group obj (s, []) =
                (.err ("failed to open file: " ++ e), s2, []) := by
              unfold Client.Write
              simp only [recording_ToUnstructured, recording_Marshal, recording_StatIsNotExist,
                recording_MkdirAll, recording_OpenFile, recording_FileWrite, hu, hp, hm]
              split_ifs at hd ⊢ <;>
                first
                  | (simp [hd, ho]; done)
                  | (simp at hd; subst hd; simp [ho])
            rw [e1]; simp
        · have e1 : c.Write (recording env) group obj (s, []) =
              (.err ("failed to create directory: " ++ e), s1, []) := by
            unfold Client.Write
            simp only [recording_ToUnstructured, recording_Marshal, recording_StatIsNotExist,
              recording_MkdirAll, recording_OpenFile, recording_FileWrite, hu, hp, hm]
            split_ifs at hd ⊢ <;>
              first
                | (simp [hd]; done)
                | (simp at hd)
          rw [e1]; simp

/-- Recording changes neither the result nor the state of `Commit`. -/
theorem recording_Commit (env : Env ρ σ) (c : Client) (file message : String) (s : σ)
    (log : List Event) :
    (c.Commit (recording env) file message (s, log)).1 = (c.Commit env file message s).1 ∧
    (c.Commit (recording env) file message (s, log)).2.1 = (c.Commit env file message s).2 := by
  unfold Client.Commit
  simp only [recording]
  cases hw : env.Worktree s with
  | some e => simp
  | none =>
    rcases hs : env.Status s with ⟨e | st, s1⟩
    · simp
    · by_cases hc : st.IsClean = true
      · simp [hc]
      · rcases ha : env.Add file s1 with ⟨_ | e, s2⟩
        · rcases hm : env.Commit message { Name := "John Doe", Email := "john@doe.org" } s2 with
            ⟨e | h, s3⟩
          · simp [hc, ha, hm]
          · simp [hc, ha, hm]
        · simp [hc, ha]

/-- Recording changes neither the result nor the state of `Write`. -/
theorem recording_Write (env : Env ρ σ) (c : Client) (group : String) (obj : ρ) (s : σ) :
    (c.Write (recording env) group obj (s, [])).1 = (c.Write env group obj s).1 ∧
    (c.Write (recording env) group obj (s, [])).2.1 = (c.Write env group obj s).2 := by
  unfold Client.Write
  simp only [recording_ToUnstructured, recording_Marshal, recording_StatIsNotExist,
    recording_MkdirAll, recording_OpenFile, recording_FileWrite]
  cases hu : env.ToUnstructured obj with
  | error e => simp
  | ok u =>
    cases hp : GetPaths c.rootDir group u with
    | panic v => simp [hp]
    | err e => simp [hp]
    | ok paths =>
      cases hm : env.Marshal u with
      | error e => simp [hp, hm]
      | ok data =>
        rcases hd : (if env.StatIsNotExist paths.Directory.Absolute s
            then env.MkdirAll paths.Directory.Absolute s else (none, s)) with ⟨_ | e, s1⟩
        · rcases ho : env.OpenFile paths.File.Absolute s1 with ⟨_ | e, s2⟩
          · rcases hw : env.FileWrite paths.File.Absolute data s2 with ⟨_ | e, s3⟩
            · have hc := recording_Commit env c paths.File.Relative
                ("Object changed: " ++ paths.File.Relative) s3 []
              split_ifs at hd ⊢ with hst <;>
                first
                  | (simp [hst, hp, hm, hd, ho, hw, hc]; done)
                  | (simp at hd; subst hd; simp [hst, hp, hm, ho, hw, hc])
            · split_ifs at hd ⊢ with hst <;>
                first
                  | (simp [hst, hp, hm, hd, ho, hw]; done)
                  | (simp at hd; subst hd; simp [hst, hp, hm, ho, hw])
          · split_ifs at hd ⊢ with hst <;>
              first
                | (simp [hst, hp, hm, hd, ho]; done)
                | (simp at hd; subst hd; simp [hst, hp, hm, ho])
        · split_ifs at hd ⊢ with hst <;>
            first
              | (simp [hst, hp, hm, hd]; done)
              | (simp at hd)

/-- Recording changes neither the result nor the state of `Delete`. -/
theorem recording_Delete (env : Env ρ σ) (c : Client) (group : String) (obj : ρ) (s : σ) :
    (c.Delete (recording env) group obj (s, [])).1 = (c.Delete env group obj s).1 ∧
    (c.Delete (recording env) group obj (s, [])).2.1 = (c.Delete env group obj s).2 := by
  unfold Client.Delete
  simp only [recording_ToUnstructured, recording_Remove]
  cases hu : env.ToUnstructured obj with
  | error e => simp
  | ok u =>
    cases hp : GetPaths c.rootDir group u with
    | panic v => simp [hp]
    | err e => simp [hp]
    | ok paths =>
      rcases hr : env.Remove paths.File.Absolute s with ⟨_ | e, s1⟩
      · have hc := recording_Commit env c paths.File.Relative
          ("Object deleted: " ++ paths.File.Relative) s1 []
        simp [hp, hr, hc]
      · simp [hp, hr]

/-- The record of one `Delete` call. -/
theorem Delete_record (env : Env ρ σ) (c : Client) (group : String) (obj : ρ) (s : σ) :
    ((c.Delete (recording env) group obj (s, [])).1 = .ok () ∧
      ((c.Delete (recording env) group obj (s, [])).2.2 = [.status true] ∨
        ∃ u paths, env.ToUnstructured obj = .ok u ∧ GetPaths c.rootDir group u = .ok paths ∧
          (c.Delete (recording env) group obj (s, [])).2.2 =
            [.status false, .commit ("Object deleted: " ++ paths.File.Relative)])) ∨
    ((c.Delete (recording env) group obj (s, [])).1 ≠ .ok () ∧
      ((c.Delete (recording env) group obj (s, [])).2.2 = [] ∨
        (c.Delete (recording env) group obj (s, [])).2.2 = [.status false])) := by
  cases hu : env.ToUnstructured obj with
  | error e =>
    have e1 : c.Delete (recording env) group obj (s, []) =
        (.err ("failed to convert to unstructured object: " ++ e), s, []) := by
      unfold Client.Delete
      simp [recording_ToUnstructured, hu]
    rw [e1]; simp
  | ok u =>
    cases hp : GetPaths c.rootDir group u with
    | panic v =>
      have e1 : c.Delete (recording env) group obj (s, []) = (.panic v, s, []) := by
        unfold Client.Delete
        simp [recording_ToUnstructured, hu, hp]
      rw [e1]; simp
    | err e =>
      have e1 : c.Delete (recording env) group obj (s, []) =
          (.err ("failed to get paths: " ++ e), s, []) := by
        unfold Client.Delete
        simp [recording_ToUnstructured, hu, hp]
      rw [e1]; simp
    | ok paths =>
      rcases hr : env.Remove paths.File.Absolute s with ⟨_ | e, s1⟩
      · have e1 : c.Delete (recording env) group obj (s, []) =
            c.Commit (recording env) paths.File.Relative
              ("Object deleted: " ++ paths.File.Relative) (s1, []) := by
          unfold Client.Delete
          simp [recording_ToUnstructured, recording_Remove, hu, hp, hr]
        rw [e1]
        rcases Commit_record env c paths.File.Relative
          ("Object deleted: " ++ paths.File.Relative) s1 [] with ⟨h1, h2 | h2⟩ | ⟨h1, h2⟩
        · exact Or.inl ⟨h1, Or.inl (by simpa using h2)⟩
        · exact Or.inl ⟨h1, Or.inr ⟨u, paths, rfl, hp, by simpa using h2⟩⟩
        · exact Or.inr ⟨h1, by simpa using h2⟩
      · have e1 : c.Delete (recording env) group obj (s, []) =
            (.err ("failed to delete file: " ++ e), s1, []) := by
          unfold Client.Delete
          simp [recording_ToUnstructured, recording_Remove, hu, hp, hr]
        rw [e1]; simp

/-- C3 (amended): a `Write` or `Delete` call that returns without error has read the
worktree status once and has created exactly one commit if that status was not clean,
and none if it was clean; a call that returns an error has created no commit. -/
theorem commit_iff_status_not_clean (env : Env ρ σ) (c : Client) (group : String) (obj : ρ)
    (s : σ) :
    (((c.Write (recording env) group obj (s, [])).1 = .ok () →
        (c.Write (recording env) group obj (s, [])).2.2 = [.status true] ∨
          ∃ m, (c.Write (recording env) group obj (s, [])).2.2 = [.status false, .commit m]) ∧
      ((c.Write (recording env) group obj (s, [])).1 ≠ .ok () →
        (c.Write (recording env) group obj (s, [])).2.2 = [] ∨
          (c.Write (recording env) group obj (s, [])).2.2 = [.status false])) ∧
    (((c.Delete (recording env) group obj (s, [])).1 = .ok () →
        (c.Delete (recording env) group obj (s, [])).2.2 = [.status true] ∨
          ∃ m, (c.Delete (recording env) group obj (s, [])).2.2 = [.status false, .commit m]) ∧
      ((c.Delete (recording env) group obj (s, [])).1 ≠ .ok () →
        (c.Delete (recording env) group obj (s, [])).2.2 = [] ∨
          (c.Delete (recording env) group obj (s, [])).2.2 = [.status false])) := by
  refine ⟨⟨?_, ?_⟩, ⟨?_, ?_⟩⟩
  · intro h
    rcases Write_record env c group obj s with ⟨_, h2 | ⟨_, paths, _, _, h2⟩⟩ | ⟨h1, _⟩
    · exact Or.inl h2
    · exact Or.inr ⟨_, h2⟩
    · exact absurd h h1
  · intro h
    rcases Write_record env c group obj s with ⟨h1, _⟩ | ⟨_, h2⟩
    · exact absurd h1 h
    · exact h2
  · intro h
    rcases Delete_record env c group obj s with ⟨_, h2 | ⟨_, paths, _, _, h2⟩⟩ | ⟨h1, _⟩
    · exact Or.inl h2
    · exact Or.inr ⟨_, h2⟩
    · exact absurd h h1
  · intro h
    rcases Delete_record env c group obj s with ⟨h1, _⟩ | ⟨_, h2⟩
    · exact absurd h1 h
    · exact h2

/-- C9: every commit created by `Write` carries the message `Object changed: ` followed
by the relative file path of `GetPaths`, every commit created by `Delete` the message
`Object deleted: ` followed by it; for group `pod`, namespace `default` and name
`web-1` these are `Object changed: default/pod/web-1.yml` and
`Object deleted: default/pod/web-1.yml`. -/
theorem commit_messages (env : Env ρ σ) (c : Client) (group : String) (obj : ρ) (s : σ) :
    (∀ m, Event.commit m ∈ (c.Write (recording env) group obj (s, [])).2.2 →
      ∃ u paths, env.ToUnstructured obj = .ok u ∧ GetPaths c.rootDir group u = .ok paths ∧
        m = "Object changed: " ++ paths.File.Relative) ∧
    (∀ m, Event.commit m ∈ (c.Delete (recording env) group obj (s, [])).2.2 →
      ∃ u paths, env.ToUnstructured obj = .ok u ∧ GetPaths c.rootDir group u = .ok paths ∧
        m = "Object deleted: " ++ paths.File.Relative) ∧
    (∀ u, env.ToUnstructured obj = .ok u → Identifies u "default" "web-1" →
      (∀ m, Event.commit m ∈ (c.Write (recording env) "pod" obj (s, [])).2.2 →
        m = "Object changed: default/pod/web-1.yml") ∧
      (∀ m, Event.commit m ∈ (c.Delete (recording env) "pod" obj (s, [])).2.2 →
        m = "Object deleted: default/pod/web-1.yml")) := by
  have hw : ∀ (g : String) (m : String),
      Event.commit m ∈ (c.Write (recording env) g obj (s, [])).2.2 →
      ∃ u paths, env.ToUnstructured obj = .ok u ∧ GetPaths c.rootDir g u = .ok paths ∧
        m = "Object changed: " ++ paths.File.Relative := by
    intro g m hm
    rcases Write_record env c g obj s with ⟨_, h2 | ⟨u, paths, hu, hp, h2⟩⟩ | ⟨_, h2 | h2⟩
    · rw [h2] at hm; simp at hm
    · rw [h2] at hm
      simp at hm
      exact ⟨u, paths, hu, hp, hm⟩
    · rw [h2] at hm; simp at hm
    · rw [h2] at hm; simp at hm
  have hd : ∀ (g : String) (m : String),
      Event.commit m ∈ (c.Delete (recording env) g obj (s, [])).2.2 →
      ∃ u paths, env.ToUnstructured obj = .ok u ∧ GetPaths c.rootDir g u = .ok paths ∧
        m = "Object deleted: " ++ paths.File.Relative := by
    intro g m hm
    rcases Delete_record env c g obj s with ⟨_, h2 | ⟨u, paths, hu, hp, h2⟩⟩ | ⟨_, h2 | h2⟩
    · rw [h2] at hm; simp at hm
    · rw [h2] at hm
      simp at hm
      exact ⟨u, paths, hu, hp, hm⟩
    · rw [h2] at hm; simp at hm
    · rw [h2] at hm; simp at hm
  have hrel : Join ["default", "pod", "web-1" ++ ".yml"] = "default/pod/web-1.yml" := by decide
  refine ⟨hw group, hd group, ?_⟩
  intro u hu hid
  constructor
  · intro m hm
    obtain ⟨u', paths, hu', hp, e⟩ := hw "pod" m hm
    rw [hu] at hu'
    injection hu' with hu'
    subst hu'
    rw [GetPaths_of_identifies c.rootDir "pod" hid] at hp
    injection hp with hp
    subst hp
    rw [e, hrel]
    rfl
  · intro m hm
    obtain ⟨u', paths, hu', hp, e⟩ := hd "pod" m hm
    rw [hu] at hu'
    injection hu' with hu'
    subst hu'
    rw [GetPaths_of_identifies c.rootDir "pod" hid] at hp
    injection hp with hp
    subst hp
    rw [e, hrel]
    rfl

theorem commit_iff_status_not_clean_witness :
    (repoClient.Write (recording repoEnv) "pod" (web1 "Running") (emptyRepo, [])).2.2 =
        [.status true] ∨
      ∃ m, (repoClient.Write (recording repoEnv) "pod" (web1 "Running") (emptyRepo, [])).2.2 =
        [.status false, .commit m] :=
  (commit_iff_status_not_clean repoEnv repoClient "pod" (web1 "Running") emptyRepo).1.1
    (by decide)

theorem commit_messages_witness :
    ∃ u paths, repoEnv.ToUnstructured (web1 "Running") = .ok u ∧
      GetPaths repoClient.rootDir "pod" u = .ok paths ∧
      "Object changed: default/pod/web-1.yml" = "Object changed: " ++ paths.File.Relative :=
  (commit_messages repoEnv repoClient "pod" (web1 "Running") emptyRepo).1
    "Object changed: default/pod/web-1.yml" (by decide)

/-- C3 (as stated) fails in both directions.  In `dirtyRepo` a `Write` leaves the
content of the target file as it was and yet creates a commit, because another file,
written earlier and never committed, makes the status not clean.  In `untrackedRepo` a
`Delete` removes the target file and creates no commit, because the file was unknown to
Git and the status is clean once it is gone. -/
theorem commit_not_by_file_change :
    (find "/repo/default/pod/web-1.yml" dirtyRepo.files = some "status: Running\n" ∧
      (repoClient.Write repoEnv "pod" (web1 "Running") dirtyRepo).1 = .ok () ∧
      find "/repo/default/pod/web-1.yml"
        (repoClient.Write repoEnv "pod" (web1 "Running") dirtyRepo).2.files =
          some "status: Running\n" ∧
      (repoClient.Write repoEnv "pod" (web1 "Running") dirtyRepo).2.history =
        dirtyRepo.history ++ ["Object changed: default/pod/web-1.yml"]) ∧
    (find "/repo/default/pod/web-1.yml" untrackedRepo.files = some "status: Running\n" ∧
      (repoClient.Delete repoEnv "pod" (web1 "Running") untrackedRepo).1 = .ok () ∧
      find "/repo/default/pod/web-1.yml"
        (repoClient.Delete repoEnv "pod" (web1 "Running") untrackedRepo).2.files = none ∧
      (repoClient.Delete repoEnv "pod" (web1 "Running") untrackedRepo).2.history =
        untrackedRepo.history) := by
  decide

/-- C4 (as stated) fails: two successive `Write` calls of one object create no commit
at all when the object is stored already (`storedRepo`), two commits when another
file keeps the status from being clean (`dirtyRepo`), and no commit at all, the file
being new, when the ignore rules of the worktree match the file (`ignoringRepo`). -/
theorem Write_twice_not_one_commit :
    ((repoClient.Write repoEnv "pod" (web1 "Running")
        (repoClient.Write repoEnv "pod" (web1 "Running") storedRepo).2).1 = .ok () ∧
      (repoClient.Write repoEnv "pod" (web1 "Running")
        (repoClient.Write repoEnv "pod" (web1 "Running") storedRepo).2).2.history =
          storedRepo.history) ∧
    ((repoClient.Write repoEnv "pod" (web1 "Running")
        (repoClient.Write repoEnv "pod" (web1 "Running") dirtyRepo).2).1 = .ok () ∧
      (repoClient.Write repoEnv "pod" (web1 "Running")
        (repoClient.Write repoEnv "pod" (web1 "Running") dirtyRepo).2).2.history =
          dirtyRepo.history ++
            ["Object changed: default/pod/web-1.yml",
              "Object changed: default/pod/web-1.yml"]) ∧
    (find "/repo/default/pod/web-1.yml" ignoringRepo.files = none ∧
      (repoClient.Write ignoringEnv "pod" (web1 "Running")
        (repoClient.Write ignoringEnv "pod" (web1 "Running") ignoringRepo).2).1 = .ok () ∧
      (repoClient.Write ignoringEnv "pod" (web1 "Running")
        (repoClient.Write ignoringEnv "pod" (web1 "Running") ignoringRepo).2).2.history =
          ignoringRepo.history) := by
  decide

/-- A `Write` call that returns without error has resolved the paths of its object. -/
theorem Write_ok_resolves {τ : Type} (env : Env ρ τ) (c : Client) (group : String) (obj : ρ)
    (s : τ) (h : (c.Write env group obj s).1 = .ok ()) :
    ∃ u paths, env.ToUnstructured obj = .ok u ∧ GetPaths c.rootDir group u = .ok paths := by
  unfold Client.Write at h
  cases hu : env.ToUnstructured obj with
  | error e => simp [hu] at h
  | ok u =>
    cases hp : GetPaths c.rootDir group u with
    | panic v => simp [hu, hp] at h
    | err e => simp [hu, hp] at h
    | ok paths => exact ⟨u, paths, rfl, hp⟩

/-- C4 (amended): when `Write` is called twice in succession with one object and both
calls return without error, each call reads the worktree status once and creates one
commit, with the message `Object changed: ` followed by the relative file path, exactly
when the status it reads is not clean.  So a second call that detects a clean tree
creates no commit, and the two calls have then created one commit in total if the
first call found the tree not clean, and none if it found it clean. -/
theorem Write_twice (env : Env ρ σ) (c : Client) (group : String) (obj : ρ) (s : σ)
    (h1 : (c.Write (recording env) group obj (s, [])).1 = .ok ())
    (h2 : (c.Write (recording env) group obj
      ((c.Write (recording env) group obj (s, [])).2.1, [])).1 = .ok ()) :
    ∃ u paths, env.ToUnstructured obj = .ok u ∧ GetPaths c.rootDir group u = .ok paths ∧
      ((c.Write (recording env) group obj (s, [])).2.2 = [.status true] ∨
        (c.Write (recording env) group obj (s, [])).2.2 =
          [.status false, .commit ("Object changed: " ++ paths.File.Relative)]) ∧
      ((c.Write (recording env) group obj
          ((c.Write (recording env) group obj (s, [])).2.1, [])).2.2 = [.status true] ∨
        (c.Write (recording env) group obj
          ((c.Write (recording env) group obj (s, [])).2.1, [])).2.2 =
            [.status false, .commit ("Object changed: " ++ paths.File.Relative)]) := by
  obtain ⟨u, paths, hu, hp⟩ := Write_ok_resolves (recording env) c group obj (s, []) h1
  have hu' : env.ToUnstructured obj = .ok u := hu
  refine ⟨u, paths, hu', hp, ?_, ?_⟩
  · rcases Write_record env c group obj s with ⟨_, h | ⟨u1, p1, hu1, hp1, h⟩⟩ | ⟨hne, _⟩
    · exact Or.inl h
    · rw [hu'] at hu1
      injection hu1 with hu1
      subst hu1
      rw [hp] at hp1
      injection hp1 with hp1
      subst hp1
      exact Or.inr h
    · exact absurd h1 hne
  · rcases Write_record env c group obj (c.Write (recording env) group obj (s, [])).2.1 with
      ⟨_, h | ⟨u1, p1, hu1, hp1, h⟩⟩ | ⟨hne, _⟩
    · exact Or.inl h
    · rw [hu'] at hu1
      injection hu1 with hu1
      subst hu1
      rw [hp] at hp1
      injection hp1 with hp1
      subst hp1
      exact Or.inr h
    · exact absurd h2 hne

theorem Write_twice_witness :
    ∃ u paths, repoEnv.ToUnstructured (web1 "Running") = .ok u ∧
      GetPaths repoClient.rootDir "pod" u = .ok paths ∧
      ((repoClient.Write (recording repoEnv) "pod" (web1 "Running") (emptyRepo, [])).2.2 =
          [.status true] ∨
        (repoClient.Write (recording repoEnv) "pod" (web1 "Running") (emptyRepo, [])).2.2 =
          [.status false, .commit ("Object changed: " ++ paths.File.Relative)]) ∧
      ((repoClient.Write (recording repoEnv) "pod" (web1 "Running")
          ((repoClient.Write (recording repoEnv) "pod" (web1 "Running") (emptyRepo, [])).2.1,
            [])).2.2 = [.status true] ∨
        (repoClient.Write (recording repoEnv) "pod" (web1 "Running")
          ((repoClient.Write (recording repoEnv) "pod" (web1 "Running") (emptyRepo, [])).2.1,
            [])).2.2 = [.status false, .commit ("Object changed: " ++ paths.File.Relative)]) :=
  Write_twice repoEnv repoClient "pod" (web1 "Running") emptyRepo (by decide) (by decide)

/-- The scenario of the specification on the reference environment: the first `Write`
of `web-1` into the empty repository creates the file and one commit, a second `Write`
of the same object creates none, and a `Write` with another status creates one more. -/
theorem scenario_runs :
    repoClient.Write repoEnv "pod" (web1 "Running") emptyRepo = (.ok (), storedRepo) ∧
    repoClient.Write repoEnv "pod" (web1 "Running") storedRepo = (.ok (), storedRepo) ∧
    (repoClient.Write repoEnv "pod" (web1 "Pending") storedRepo).2.history =
      ["Object changed: default/pod/web-1.yml", "Object changed: default/pod/web-1.yml"] := by
  decide

/-- On an object whose present fields are well typed and which lacks `metadata`,
`metadata.namespace` or `metadata.name`, `Write` returns the extraction error and
leaves the state as it was. -/
theorem Write_missing_field (env : Env ρ σ) (c : Client) (group : String) (obj : ρ) (s : σ)
    (u : Obj) (hu : env.ToUnstructured obj = .ok u) (ht : WellTyped u) (hm : MissingField u) :
    ∃ e, GetNamespaceName u = .err e ∧
      c.Write env group obj s =
        (.err ("failed to get paths: " ++ ("failed to extract metadata: " ++ e)), s) := by
  obtain ⟨e, he⟩ := (GetNamespaceName_wellTyped u ht).1.mpr hm
  refine ⟨e, he, ?_⟩
  unfold Client.Write
  simp [hu, GetPaths, he]

/-- On an object without `metadata`, or whose `metadata` is a map without `namespace`,
`Write` returns the extraction error and leaves the state as it was, whatever the
other fields hold. -/
theorem Write_missing_namespace (env : Env ρ σ) (c : Client) (group : String) (obj : ρ) (s : σ)
    (u : Obj) (hu : env.ToUnstructured obj = .ok u)
    (hm : Obj.get u UnstructuredKeyMetadata = none ∨
      ∃ md, Obj.get u UnstructuredKeyMetadata = some (.map md) ∧
        Obj.get md UnstructuredKeyNamespace = none) :
    ∃ key, c.Write env group obj s =
      (.err ("failed to get paths: " ++ ("failed to extract metadata: " ++
        ("not found: " ++ key))), s) := by
  rcases hm with hm | ⟨md, hm, hn⟩
  · refine ⟨UnstructuredKeyMetadata, ?_⟩
    unfold Client.Write
    simp [hu, GetPaths, GetNamespaceName, hm]
  · refine ⟨UnstructuredKeyNamespace, ?_⟩
    unfold Client.Write
    simp [hu, GetPaths, GetNamespaceName, hm, hn]

/-- C7 (the code at the failing input): handed an object that lacks `metadata.name`
and whose namespace is a number, `Write` panics; it does not return an error.  The
state is left as it was. -/
theorem Write_panics_without_name :
    repoClient.Write repoEnv "pod" [("metadata", .map [("namespace", .int 5)])] emptyRepo =
      (.panic "interface conversion: interface \x7b\x7d is int64, not string", emptyRepo) := by
  decide

/-- C8: when the unstructured object has valid metadata and `os.Remove` reports that
the resolved file is missing, leaving the state as it is, `Delete` returns that error
wrapped as `failed to delete file`, reads no status, creates no commit and leaves the
state unchanged. -/
theorem Delete_missing_file (env : Env ρ σ) (c : Client) (group : String) (obj : ρ) (s : σ)
    (u : Obj) (paths : PathList) (e : String)
    (hu : env.ToUnstructured obj = .ok u) (hp : GetPaths c.rootDir group u = .ok paths)
    (hrm : env.Remove paths.File.Absolute s = (some e, s)) :
    c.Delete env group obj s = (.err ("failed to delete file: " ++ e), s) ∧
    c.Delete (recording env) group obj (s, []) = (.err ("failed to delete file: " ++ e), s, []) := by
  constructor
  · unfold Client.Delete
    simp [hu, hp, hrm]
  · unfold Client.Delete
    simp [recording_ToUnstructured, recording_Remove, hu, hp, hrm]

theorem Delete_missing_file_witness :
    repoClient.Delete repoEnv "pod" (web1 "Running") emptyRepo =
      (.err ("failed to delete file: " ++
        "remove /repo/default/pod/web-1.yml: no such file or directory"), emptyRepo) ∧
    repoClient.Delete (recording repoEnv) "pod" (web1 "Running") (emptyRepo, []) =
      (.err ("failed to delete file: " ++
        "remove /repo/default/pod/web-1.yml: no such file or directory"), emptyRepo, []) :=
  Delete_missing_file repoEnv repoClient "pod" (web1 "Running") emptyRepo (web1 "Running")
    ⟨⟨"default/pod", "/repo/default/pod"⟩, ⟨"default/pod/web-1.yml", "/repo/default/pod/web-1.yml"⟩⟩
    "remove /repo/default/pod/web-1.yml: no such file or directory" rfl (by decide) (by decide)

end StoreTheorems

end Kit

